import Mathlib

/-!
Verification of the x402 Hyperliquid facilitator (payload codec, verify engine,
settle engine) against its natural-language specification.

The TypeScript source is shallowly embedded: JavaScript values flowing through
the payment pipeline are modelled by the `Json` inductive below (JS numbers are
modelled as exact rationals; binary-float rounding and non-finite values are
outside the model, and none of the verified properties depend on them).
External effects (the Hyperliquid exchange endpoint, the info client, the
wall clock) are passed in explicitly as parameters, so every embedded function
is a total, executable Lean function.
-/

set_option maxRecDepth 10000

/-- A JSON / JavaScript runtime value. Objects are association lists in
insertion order with distinct keys (the shape produced by `JSON.parse` and by
the object literals in the source). -/
inductive Json where
  | null
  | bool (b : Bool)
  | num (q : ℚ)
  | str (s : String)
  | arr (elems : List Json)
  | obj (fields : List (String × Json))

/-- Property read on a JS object: first binding of the key. -/
def jsLookup : List (String × Json) → String → Option Json
  | [], _ => none
  | (k, v) :: rest, key => if k = key then some v else jsLookup rest key

/-- `value?.[key]` — property read through an optional-chaining guard:
non-objects yield `undefined`. -/
def jsGet (j : Json) (key : String) : Option Json :=
  match j with
  | .obj fields => jsLookup fields key
  | _ => none

/-- JS truthiness test (`!value`): models `null`, `false`, `0`, `""` as falsy. -/
def jsFalsy (j : Json) : Bool :=
  match j with
  | .null => true
  | .bool b => !b
  | .num q => q = 0
  | .str s => s.data.isEmpty
  | _ => false

/-- `String.prototype.toLowerCase` (ASCII case mapping, applied
characterwise on the character list so that it reduces by computation). -/
def jsToLower (s : String) : String :=
  String.mk (s.data.map Char.toLower)

/-- Whitespace recognised by `String.prototype.trim` (ASCII subset; the exotic
Unicode space classes never appear in payment amounts). -/
def isWsChar (c : Char) : Bool :=
  c = ' ' || c = '\t' || c = '\n' || c = '\r'

/-- `String.prototype.trim`, modelled on the character list. -/
def jsTrim (cs : List Char) : List Char :=
  ((cs.dropWhile isWsChar).reverse.dropWhile isWsChar).reverse

def isDigitChar (c : Char) : Bool :=
  '0' ≤ c && c ≤ '9'

def digitVal (c : Char) : Nat :=
  c.toNat - '0'.toNat

/-- Value of a decimal digit string, as read by `BigInt("...")`. -/
def natOfDigits (ds : List Char) : Nat :=
  ds.foldl (fun a c => a * 10 + digitVal c) 0

/-- `String.prototype.padEnd(n, "0")`. -/
def padRight (cs : List Char) (n : Nat) : List Char :=
  cs ++ List.replicate (n - cs.length) '0'

/-- `String.prototype.split(sep)` for a one-character separator, on the
character list: the empty string splits to `[""]`, and every separator
occurrence opens a new (possibly empty) part. -/
def splitOnChar (sep : Char) : List Char → List (List Char)
  | [] => [[]]
  | c :: rest =>
    if c = sep then [] :: splitOnChar sep rest
    else
      match splitOnChar sep rest with
      | h :: t => (c :: h) :: t
      | [] => [[c]]

/-- Does `needle` occur at the head of `hay`? -/
def leadMatch : List Char → List Char → Bool
  | _, [] => true
  | [], _ :: _ => false
  | h :: hs, n :: ns => h = n && leadMatch hs ns

/-- `String.prototype.includes(needle)` on character lists. -/
def containsSub (needle : List Char) : List Char → Bool
  | [] => needle.isEmpty
  | h :: t => leadMatch (h :: t) needle || containsSub needle t

/-- The regex `^0x[0-9a-fA-F]{64}$` from `isHexHash` in settle.ts. -/
def isHexDigitChar (c : Char) : Bool :=
  isDigitChar c || ('a' ≤ c && c ≤ 'f') || ('A' ≤ c && c ≤ 'F')

/-- `isHexHash` (settle.ts): a 0x-prefixed 64-hex-digit transaction hash. -/
def isHexHash (s : String) : Bool :=
  match s.data with
  | '0' :: 'x' :: rest => rest.length = 64 && rest.all isHexDigitChar
  | _ => false

/-- The regex `^\d+(\.\d+)?$` guarding `decimalToAtomic` in verify.ts. -/
def decRegexOk (cs : List Char) : Bool :=
  let whole := cs.takeWhile isDigitChar
  let rest := cs.dropWhile isDigitChar
  !whole.isEmpty &&
    (match rest with
     | [] => true
     | '.' :: f => !f.isEmpty && f.all isDigitChar
     | _ => false)

/-- `value.split(".")` destructured as `[whole, fraction = ""]`: everything
before the first dot, and everything after it (empty when there is no dot).
Used only on regex-validated input, which has at most one dot. -/
def splitDot (cs : List Char) : List Char × List Char :=
  let whole := cs.takeWhile (fun c => c ≠ '.')
  match cs.dropWhile (fun c => c ≠ '.') with
  | _ :: f => (whole, f)
  | [] => (whole, [])

/-- `BigInt(string)`: trims, accepts an optional sign followed by decimal
digits, empty input is `0n`, anything else throws (`none`). The hexadecimal
and octal literal forms never occur in payment requirement amounts and are
not modelled. -/
def jsBigInt (s : String) : Option Int :=
  match jsTrim s.data with
  | [] => some 0
  | '-' :: ds =>
    if !ds.isEmpty && ds.all isDigitChar then some (-(natOfDigits ds : Int)) else none
  | '+' :: ds =>
    if !ds.isEmpty && ds.all isDigitChar then some (natOfDigits ds : Int) else none
  | ds =>
    if ds.all isDigitChar then some (natOfDigits ds : Int) else none

/-- Fractional value of the digits after a decimal point. -/
def digitsToFrac (ds : List Char) : ℚ :=
  (natOfDigits ds : ℚ) / (10 : ℚ) ^ ds.length

/-- Core of `Number(string)` after sign stripping: `digits`, `digits.`,
`digits.digits` or `.digits`. -/
def parseJsNumberCore (cs : List Char) : Option ℚ :=
  let intPart := cs.takeWhile isDigitChar
  match cs.dropWhile isDigitChar with
  | [] => if intPart.isEmpty then none else some (natOfDigits intPart : ℚ)
  | '.' :: f =>
    if f.all isDigitChar && (!intPart.isEmpty || !f.isEmpty) then
      some ((natOfDigits intPart : ℚ) + digitsToFrac f)
    else none
  | _ => none

/-- `Number(string)` (`none` is `NaN`): trims, the empty string is `0`,
optional sign, then a plain decimal numeral. Exponent, hexadecimal and
`Infinity` forms never occur in payment amounts and are not modelled; the
value is kept as an exact rational (float rounding is outside the model). -/
def parseJsNumber (s : String) : Option ℚ :=
  match jsTrim s.data with
  | [] => some 0
  | '-' :: rest => (parseJsNumberCore rest).map (fun q => -q)
  | '+' :: rest => parseJsNumberCore rest
  | rest => parseJsNumberCore rest

/-! ## Network family registry (types/shared/network.ts)

The Hyperliquid family and the full `NetworkSchema` enum are taken from the
integration plan's `network.ts` listing. The EVM and SVM membership lists are
not under src (only their uses are); their members are the NetworkSchema
entries that are not Solana or Hyperliquid networks, per the spec's static
family classification. -/

/-- The `NetworkSchema` zod enum (types/shared/network.ts). -/
def allNetworks : List String :=
  ["abstract", "abstract-testnet", "base-sepolia", "base", "avalanche-fuji",
   "avalanche", "iotex", "solana-devnet", "solana", "sei", "sei-testnet",
   "polygon", "polygon-amoy", "peaq", "story", "educhain",
   "skale-base-sepolia", "hyperliquid-testnet", "hyperliquid"]

/-- Modelled from the spec: `SupportedEVMNetworks` is missing from src (only
its callers are); per the static family registry it holds the EVM members of
`NetworkSchema`. -/
def SupportedEVMNetworks : List String :=
  ["abstract", "abstract-testnet", "base-sepolia", "base", "avalanche-fuji",
   "avalanche", "iotex", "sei", "sei-testnet", "polygon", "polygon-amoy",
   "peaq", "story", "educhain", "skale-base-sepolia"]

/-- Modelled from the spec: `SupportedSVMNetworks` is missing from src; it
holds the Solana members of `NetworkSchema`. -/
def SupportedSVMNetworks : List String :=
  ["solana-devnet", "solana"]

/-- `SupportedHLNetworks` (types/shared/network.ts). -/
def SupportedHLNetworks : List String :=
  ["hyperliquid-testnet", "hyperliquid"]

/-- The single supported scheme discriminator (`SCHEME = "exact"`). -/
def SCHEME : String := "exact"

/-- The `schemes` enum backing `PaymentPayloadSchema.scheme`. -/
def schemes : List String := [SCHEME]

/-- The `x402Versions` list backing the `x402Version` refinement, as the JS
numbers it contains. -/
def x402VersionsQ : List ℚ := [1]

/-! ## Data model (types/verify/x402Specs.ts and spec §3) -/

/-- A value of an EVM authorization field as it reaches `encodePayment`:
either already a string, or a bigint produced by the signing library.
`JSON.stringify` cannot serialize the latter. -/
inductive AuthValue where
  | strV (s : String)
  | bigV (n : Int)

/-- Modelled from the spec: `ExactEvmPayloadSchema` is missing from src.
Per spec §3 the Family-A payload carries a signature and an authorization
struct whose big-integer fields are carried as decimal strings on the
wire. -/
structure EvmPayload where
  signature : String
  authorization : List (String × AuthValue)

/-- Modelled from the spec: `ExactSvmPayloadSchema` is missing from src.
Per spec §3 the Family-B payload carries the serialized transaction. -/
structure SvmPayload where
  transaction : String

/-- `ExactHlPayloadSchema.signature`: a hex signature string or an
`{r, s, v}` record. -/
inductive HlSignature where
  | hexSig (s : String)
  | rsvSig (r : String) (s : String) (v : ℚ)

/-- `ExactHlPayload`: `{action, signature, nonce, user?}`. The optional
`user` field is modelled from spec §3 (the plan's starter schema omits it,
but the settle engine and its tests read it). -/
structure HlPayload where
  action : List (String × Json)
  signature : HlSignature
  nonce : Int
  user : Option String

/-- The discriminated payload union of `PaymentPayloadSchema`. -/
inductive ExactPayload where
  | evm (e : EvmPayload)
  | svm (s : SvmPayload)
  | hl (h : HlPayload)

/-- `PaymentPayload`: the `{x402Version, scheme, network, payload}` envelope. -/
structure PaymentPayload where
  x402Version : Int
  scheme : String
  network : String
  payload : ExactPayload

/-- `PaymentRequirements` restricted to the fields the verify/settle engines
read. `extra` is the open hint map; `maxTimeoutSeconds` is a JS number. -/
structure PaymentRequirements where
  scheme : String
  network : String
  maxAmountRequired : String
  payTo : String
  maxTimeoutSeconds : ℚ
  asset : String
  extra : Option (List (String × Json))

/-- `VerifyResponse`. -/
structure VerifyResponse where
  isValid : Bool
  invalidReason : Option String
  payer : Option String
deriving DecidableEq

/-- `SettleResponse`. -/
structure SettleResponse where
  success : Bool
  transaction : String
  network : String
  payer : Option String
  errorReason : Option String
deriving DecidableEq

/-! ## Payload codec (encodePayment / decodePayment, schemes/exact/evm/utils/paymentUtils.ts)

`safeBase64Encode ∘ JSON.stringify` and its inverse are external builtins
(spec §1/§6); they form a bijection between JSON value trees and the
transport strings in its image, so the codec is modelled at the JSON-tree
boundary: `encodePayment` produces the tree that is stringified and
base64-encoded, `decodePayment` consumes the tree produced by decoding and
`JSON.parse`. `JSON.stringify` throws on a bigint value, which the encoder
models as `none`. -/

/-- The EVM pre-serialization step: `typeof v === "bigint" ? v.toString() : v`
applied to every authorization entry. -/
def stringifyAuthValue : AuthValue → AuthValue
  | .bigV n => .strV (toString n)
  | v => v

/-- `JSON.stringify` of one authorization field: a bigint cannot be
serialized (the real stringify throws a TypeError). -/
def authValueToJson : AuthValue → Option Json
  | .strV s => some (.str s)
  | .bigV _ => none

/-- `JSON.stringify` of the authorization record. -/
def authEntriesToJson : List (String × AuthValue) → Option (List (String × Json))
  | [] => some []
  | (k, v) :: rest => do
    let j ← authValueToJson v
    let js ← authEntriesToJson rest
    pure ((k, j) :: js)

/-- `JSON.stringify` of an HL signature value. -/
def sigToJson : HlSignature → Json
  | .hexSig s => .str s
  | .rsvSig r s v => .obj [("r", .str r), ("s", .str s), ("v", .num v)]

/-- `JSON.stringify` of one member of the payload union. -/
def exactPayloadToJson : ExactPayload → Option Json
  | .evm e =>
    (authEntriesToJson e.authorization).map fun es =>
      .obj [("signature", .str e.signature), ("authorization", .obj es)]
  | .svm s => some (.obj [("transaction", .str s.transaction)])
  | .hl h =>
    some (.obj ([("action", .obj h.action), ("signature", sigToJson h.signature),
                 ("nonce", .num (h.nonce : ℚ))] ++
                (match h.user with
                 | some u => [("user", .str u)]
                 | none => [])))

/-- `JSON.stringify` of the `{x402Version, scheme, network, payload}`
envelope around an already-serialized payload. -/
def envelopeJson (p : PaymentPayload) (payloadJson : Json) : Json :=
  .obj [("x402Version", .num (p.x402Version : ℚ)), ("scheme", .str p.scheme),
        ("network", .str p.network), ("payload", payloadJson)]

/-- `encodePayment` (paymentUtils.ts): dispatch on the network family; the
EVM branch stringifies bigint authorization fields before serializing, the
SVM and HL branches serialize the payload as-is; an unknown network throws
(`none`). The EVM branch reads `payload.authorization`, so a non-EVM payload
shape under an EVM network also throws. -/
def encodePayment (p : PaymentPayload) : Option Json :=
  if p.network ∈ SupportedEVMNetworks then
    match p.payload with
    | .evm e =>
      let entries := e.authorization.map fun kv => (kv.1, stringifyAuthValue kv.2)
      (exactPayloadToJson (.evm ⟨e.signature, entries⟩)).map (envelopeJson p)
    | _ => none
  else if p.network ∈ SupportedSVMNetworks then
    (exactPayloadToJson p.payload).map (envelopeJson p)
  else if p.network ∈ SupportedHLNetworks then
    (exactPayloadToJson p.payload).map (envelopeJson p)
  else none

/-- Modelled from the spec: `ExactEvmPayloadSchema.parse` — the Family-A
payload member of the zod union; its authorization struct carries every
field as a string on the wire (spec §3, §4.2). -/
def authEntriesParse : List (String × Json) → Option (List (String × AuthValue))
  | [] => some []
  | (k, .str s) :: rest => (authEntriesParse rest).map ((k, AuthValue.strV s) :: ·)
  | _ => none

def evmPayloadParse (pj : Json) : Option ExactPayload :=
  match pj with
  | .obj pfs =>
    match jsLookup pfs "signature", jsLookup pfs "authorization" with
    | some (.str sig), some (.obj aes) =>
      (authEntriesParse aes).map fun es => ExactPayload.evm ⟨sig, es⟩
    | _, _ => none
  | _ => none

/-- Modelled from the spec: `ExactSvmPayloadSchema.parse` — the Family-B
payload member of the zod union, carrying the serialized transaction. -/
def svmPayloadParse (pj : Json) : Option ExactPayload :=
  match pj with
  | .obj pfs =>
    match jsLookup pfs "transaction" with
    | some (.str t) => some (.svm ⟨t⟩)
    | _ => none
  | _ => none

/-- `ExactHlPayloadSchema.signature.parse`: the string member of the union is
tried first (`z.string().min(1)`), then the `{r, s, v}` object. -/
def sigParse (sj : Json) : Option HlSignature :=
  match sj with
  | .str s => if 1 ≤ s.length then some (.hexSig s) else none
  | .obj sfs =>
    match jsLookup sfs "r", jsLookup sfs "s", jsLookup sfs "v" with
    | some (.str r), some (.str s), some (.num v) => some (.rsvSig r s v)
    | _, _, _ => none
  | _ => none

/-- `ExactHlPayloadSchema.parse`: `action` a record, `signature` per
`sigParse`, `nonce` a positive integer JS number, optional string `user`
(modelled from spec §3). -/
def hlPayloadParse (pj : Json) : Option ExactPayload :=
  match pj with
  | .obj pfs =>
    match jsLookup pfs "action", jsLookup pfs "signature", jsLookup pfs "nonce" with
    | some (.obj afs), some sigJ, some (.num q) =>
      match sigParse sigJ with
      | some sig =>
        if q.den = 1 ∧ 0 < q.num then
          match jsLookup pfs "user" with
          | none => some (.hl ⟨afs, sig, q.num, none⟩)
          | some (.str u) => some (.hl ⟨afs, sig, q.num, some u⟩)
          | some _ => none
        else none
      | none => none
    | _, _, _ => none
  | _ => none

/-- The `PaymentPayloadSchema.payload` union: zod tries the EVM, SVM and HL
members in declaration order. -/
def exactPayloadParse (pj : Json) : Option ExactPayload :=
  (evmPayloadParse pj).orElse fun _ =>
    (svmPayloadParse pj).orElse fun _ => hlPayloadParse pj

/-- `PaymentPayloadSchema.parse`: the envelope must carry a version from
`x402Versions`, a scheme from `schemes`, a `NetworkSchema` network and a
payload accepted by the union. -/
def paymentPayloadParse (j : Json) : Option PaymentPayload :=
  match j with
  | .obj fs =>
    match jsLookup fs "x402Version", jsLookup fs "scheme",
          jsLookup fs "network", jsLookup fs "payload" with
    | some (.num ver), some (.str sch), some (.str net), some payloadJ =>
      if ver ∈ x402VersionsQ ∧ sch ∈ schemes ∧ net ∈ allNetworks then
        (exactPayloadParse payloadJ).map fun ep =>
          { x402Version := ver.num, scheme := sch, network := net, payload := ep }
      else none
    | _, _, _, _ => none
  | _ => none

/-- `decodePayment` (paymentUtils.ts): after base64-decoding and JSON-parsing,
dispatch on the decoded `network` field and validate the envelope through
`PaymentPayloadSchema`; an unknown network throws (`none`). -/
def decodePayment (j : Json) : Option PaymentPayload :=
  let networkOf : Option String :=
    match j with
    | .obj fs =>
      match jsLookup fs "network" with
      | some (.str n) => some n
      | _ => none
    | _ => none
  match networkOf with
  | some n =>
    if n ∈ SupportedEVMNetworks then paymentPayloadParse j
    else if n ∈ SupportedSVMNetworks then paymentPayloadParse j
    else if n ∈ SupportedHLNetworks then paymentPayloadParse j
    else none
  | none => none

/-- All authorization fields already carried as strings (the shape accepted
by the wire schema). -/
def authAllStr (entries : List (String × AuthValue)) : Prop :=
  ∀ kv ∈ entries, ∃ s, kv.2 = AuthValue.strV s

/-- Is an authorization field value already a string? -/
def isStrV : AuthValue → Bool
  | .strV _ => true
  | .bigV _ => false

instance (entries : List (String × AuthValue)) : Decidable (authAllStr entries) :=
  decidable_of_iff (entries.all (fun kv => isStrV kv.2) = true) (by
    simp only [List.all_eq_true, authAllStr]
    constructor
    · intro h kv hm
      cases hkv : kv.2 with
      | strV s => exact ⟨s, rfl⟩
      | bigV n =>
        have hh := h kv hm
        rw [hkv] at hh
        simp [isStrV] at hh
    · intro h kv hm
      obtain ⟨s, hs⟩ := h kv hm
      rw [hs]
      rfl)

/-- Well-formedness of a `PaymentPayload` (spec §3, §8): schema-valid, with
the payload variant belonging to the network's family. -/
def wfPaymentPayload (p : PaymentPayload) : Prop :=
  p.x402Version = 1 ∧ p.scheme = SCHEME ∧
  (match p.payload with
   | .evm e => p.network ∈ SupportedEVMNetworks ∧ authAllStr e.authorization
   | .svm _ => p.network ∈ SupportedSVMNetworks
   | .hl h =>
     p.network ∈ SupportedHLNetworks ∧ 0 < h.nonce ∧
     (match h.signature with
      | .hexSig s => 1 ≤ s.length
      | .rsvSig _ _ _ => True))

/-! ## Verify engine (schemes/exact/hyperliquid/facilitator/verify.ts)

The engine's two impure inputs are passed explicitly: `now` is `Date.now()`
(integral milliseconds) and `fetchDecimals` is the
`fetchHyperliquidTokenInfo(network, tokenId).decimals` lookup for the
requirement's network (`none` models the lookup throwing; the process-wide
token-info cache is a pure optimization, spec §5, and is not modelled). -/

/-- The union-typed payload reaches the engine through an unchecked cast
(`paymentPayload.payload as ExactHlPayload`); reading `.action` off a
non-HL member yields `undefined`, which the shape guard rejects. -/
def hlPayloadOf : ExactPayload → Option HlPayload
  | .hl h => some h
  | _ => none

/-- `extractPayer` (verify.ts): an explicit string `user` on the payload,
else a string `action.user`. -/
def extractPayerHl (payload : HlPayload) : Option String :=
  match payload.user with
  | some u => some u
  | none =>
    match jsLookup payload.action "user" with
    | some (.str s) => some s
    | _ => none

/-- `decimalToAtomic` (verify.ts): trim, validate against `^\d+(\.\d+)?$`
(throwing — `none` — otherwise), split on the dot, truncate or zero-pad the
fractional digits to exactly `decimals`, and combine
`BigInt(whole) * 10n ** decimals + BigInt(fraction)`. -/
def decimalToAtomic (value : String) (decimals : Nat) : Option Int :=
  let sanitized := jsTrim value.data
  if decRegexOk sanitized then
    let parts := splitDot sanitized
    let fraction := parts.2
    let normalizedFraction :=
      if decimals < fraction.length then fraction.take decimals
      else padRight fraction decimals
    let wholeUnits : Int := (natOfDigits parts.1 : Int) * (10 : Int) ^ decimals
    let fractionalUnits : Int :=
      (natOfDigits (if normalizedFraction.isEmpty then ['0'] else normalizedFraction) : Int)
    some (wholeUnits + fractionalUnits)
  else none

/-- The `decimals`-unknown fallback `Number(payloadAmount) >= Number(required)`;
a `NaN` (`none`) on either side compares false. -/
def numFallbackGe (payloadAmount requiredAtomicAmount : String) : Bool :=
  match parseJsNumber payloadAmount, parseJsNumber requiredAtomicAmount with
  | some a, some r => r ≤ a
  | _, _ => false

/-- `ensureAmountMeetsRequirement` (verify.ts): with unknown or negative
`decimals`, fall back to raw numeric comparison; otherwise convert the
decimal-string amount to atomic units and compare `>=` against
`BigInt(maxAmountRequired)` exactly, any conversion throw (a malformed
amount, a non-integral `decimals`, a malformed requirement) returning
false. -/
def ensureAmountMeetsRequirement (payloadAmount requiredAtomicAmount : String)
    (decimals : Option ℚ) : Bool :=
  match decimals with
  | none => numFallbackGe payloadAmount requiredAtomicAmount
  | some d =>
    if d < 0 then numFallbackGe payloadAmount requiredAtomicAmount
    else if d.den ≠ 1 then false
    else
      match decimalToAtomic payloadAmount d.num.toNat,
            jsBigInt requiredAtomicAmount with
      | some payloadAtomic, some required => required ≤ payloadAtomic
      | _, _ => false

/-- `withinTtl` (verify.ts): the action's `time` must be a finite number and
`Date.now() <= time + maxTimeoutSeconds * 1000`. -/
def withinTtl (actionTime : Option Json) (maxTimeoutSeconds : ℚ) (now : Int) : Bool :=
  match actionTime with
  | some (.num t) => (now : ℚ) ≤ t + maxTimeoutSeconds * 1000
  | _ => false

/-- `extractHyperliquidTokenId` (verify.ts): the empty asset yields nothing;
a two-part `SYMBOL:TOKENID` split yields the part after the colon; otherwise
the whole asset when it starts with `0x`. -/
def extractHyperliquidTokenId (asset : String) : Option String :=
  match asset.data with
  | [] => none
  | cs =>
    match splitOnChar ':' cs with
    | [_, p1] => some (String.mk p1)
    | p0 :: _ => if leadMatch p0 ['0', 'x'] then some (String.mk p0) else none
    | [] => none

/-- `requirements.extra?.decimals` when it is a JS number. -/
def extraDecimals (r : PaymentRequirements) : Option ℚ :=
  match r.extra with
  | none => none
  | some m =>
    match jsLookup m "decimals" with
    | some (.num q) => some q
    | _ => none

/-- `resolveDecimals` (verify.ts), instrumented with the list of token-info
lookups it performs: prefer `extra.decimals`; otherwise extract a token id
from the asset string — the `if (!tokenId)` falsy guard skips both a
missing and an empty extraction — and perform one lookup with it (a
throwing lookup — `fetchDecimals = none` — degrades to unknown
decimals). -/
def resolveDecimals (fetchDecimals : String → Option ℚ)
    (r : PaymentRequirements) : Option ℚ × List String :=
  match extraDecimals r with
  | some d => (some d, [])
  | none =>
    match extractHyperliquidTokenId r.asset with
    | none => (none, [])
    | some tokenId =>
      if tokenId.data.isEmpty then (none, [])
      else (fetchDecimals tokenId, [tokenId])

/-- A string field of the action record, as read by the shape check
(`typeof x === "string"` followed by a JS truthiness test, so the empty
string counts as missing). -/
def actionStrField (action : List (String × Json)) (key : String) : Option String :=
  match jsLookup action key with
  | some (.str s) => if s.data.isEmpty then none else some s
  | _ => none

/-- `verify` (schemes/exact/hyperliquid/facilitator/verify.ts). -/
def verify (now : Int) (fetchDecimals : String → Option ℚ)
    (paymentPayload : PaymentPayload)
    (paymentRequirements : PaymentRequirements) : VerifyResponse :=
  if ¬(paymentPayload.scheme = SCHEME ∧ paymentRequirements.scheme = SCHEME ∧
       paymentPayload.network = paymentRequirements.network ∧
       paymentRequirements.network ∈ SupportedHLNetworks) then
    { isValid := false, invalidReason := some "invalid_exact_hl_network", payer := none }
  else
    match hlPayloadOf paymentPayload.payload with
    | none =>
      { isValid := false, invalidReason := some "invalid_exact_hl_payload", payer := none }
    | some payload =>
      match actionStrField payload.action "destination",
            actionStrField payload.action "token",
            actionStrField payload.action "amount" with
      | some destination, some token, some amount =>
        if jsToLower destination ≠ jsToLower paymentRequirements.payTo then
          { isValid := false,
            invalidReason := some "invalid_exact_hl_payload_recipient_mismatch",
            payer := none }
        else if token ≠ paymentRequirements.asset then
          { isValid := false,
            invalidReason := some "invalid_exact_hl_payload_asset_mismatch",
            payer := none }
        else
          let decimals := (resolveDecimals fetchDecimals paymentRequirements).1
          if ¬ensureAmountMeetsRequirement amount
              paymentRequirements.maxAmountRequired decimals then
            { isValid := false,
              invalidReason := some "invalid_exact_hl_payload_amount_mismatch",
              payer := none }
          else if ¬withinTtl (jsLookup payload.action "time")
              paymentRequirements.maxTimeoutSeconds now then
            { isValid := false, invalidReason := some "payment_expired", payer := none }
          else
            { isValid := true, invalidReason := none, payer := extractPayerHl payload }
      | _, _, _ =>
        { isValid := false, invalidReason := some "invalid_exact_hl_payload", payer := none }

/-! ## Settle engine (schemes/exact/hyperliquid/facilitator/settle.ts)

The three network effects are passed in as a `SettleEffects` record: the
exchange POST outcome, the `infoClient.userDetails` outcome for the payer,
and the per-attempt `fetchTransactionDetails` outcome of the confirmation
poll. Lean totality models the engine's catch-all behaviour: the only
statement inside settle's `try` that can throw is `submitExchange`
(`findMatchingTransactionHash` and `confirmTransaction` catch their own
lookup errors). -/

/-- `CONFIRMATION_RETRIES` (settle.ts line 8). -/
def CONFIRMATION_RETRIES : Nat := 3

/-- `CONFIRMATION_DELAY_MS` (settle.ts line 9): the fixed inter-attempt
delay; it only suspends, so it is carried as data, not behaviour. -/
def CONFIRMATION_DELAY_MS : Nat := 250

/-- Outcome of `fetch(exchangeUrl, ...)`: a transport-level throw, or a
response with its HTTP `ok` flag and parsed JSON body (`none` when
`response.json()` rejected and was caught to `null`). -/
inductive ExchangeOutcome where
  | netThrow
  | response (ok : Bool) (body : Option Json)

/-- External effects consumed by one `settle` call. -/
structure SettleEffects where
  exchange : ExchangeOutcome
  userDetails : Except Unit Json
  txLookup : Nat → Except String Unit

/-- `submitExchange` (settle.ts): POST the `{action, signature, nonce}`
body; throw (`.error`) on transport failure, a non-ok HTTP status, an
unparseable or falsy body, or a body whose `status` marker is not exactly
`"ok"`. -/
def submitExchange (o : ExchangeOutcome) : Except Unit Json :=
  match o with
  | .netThrow => .error ()
  | .response ok body =>
    if !ok then .error ()
    else
      match body with
      | none => .error ()
      | some j =>
        if jsFalsy j then .error ()
        else
          match jsGet j "status" with
          | some (.str s) => if s = "ok" then .ok j else .error ()
          | _ => .error ()

/-- `extractExchangeTxHash` (settle.ts):
`response.response?.txHash ?? response.txHash ?? response.hash`. The
declared response type carries these fields as strings; non-string values
are outside the model. -/
def extractExchangeTxHash (j : Json) : Option String :=
  match (jsGet j "response").bind (fun r => jsGet r "txHash") with
  | some (.str s) => some s
  | _ =>
    match jsGet j "txHash" with
    | some (.str s) => some s
    | _ =>
      match jsGet j "hash" with
      | some (.str s) => some s
      | _ => none

/-- `extractPayer` (settle.ts): only a payload with an `action` member — the
HL union member — can carry a payer. -/
def extractPayer : ExactPayload → Option String
  | .hl h => extractPayerHl h
  | _ => none

/-- JS truthiness of the `payer` string variable (the empty string is
falsy, so it disables history matching). -/
def payerTruthy : Option String → Bool
  | some s => !s.data.isEmpty
  | none => false

/-- `toNumber` (settle.ts) applied to a looked-up field: finite numbers
only. -/
def jsToNumber : Option Json → Option ℚ
  | some (.num q) => some q
  | _ => none

/-- A field of the raw transaction record (`tx.time`, `tx.hash`). -/
def txField (tx : Json) (key : String) : Option Json :=
  jsGet tx key

/-- `stringify` (settle.ts): strings as-is, finite numbers via
`toString`. Integral numbers print exactly; non-integral JS floats have no
faithful exact-decimal printer in the rational model and are left outside
it. -/
def stringifyJs : Option Json → Option String
  | some (.str s) => some s
  | some (.num q) => if q.den = 1 then some (toString q.num) else none
  | _ => none

/-- `equalsIgnoreCase` (settle.ts): both sides must stringify, compared
lower-cased. -/
def equalsIgnoreCase (a b : Option Json) : Bool :=
  match stringifyJs a, stringifyJs b with
  | some l, some r => jsToLower l = jsToLower r
  | _, _ => false

/-- `valuesMatch` (settle.ts): a nullish expectation always matches,
otherwise case-insensitive equality. -/
def valuesMatch (candidate expected : Option Json) : Bool :=
  match expected with
  | none => true
  | some .null => true
  | some e => equalsIgnoreCase candidate (some e)

/-- `coerceAmountToNumber` (settle.ts): finite numbers as-is, strings via
`Number(...)` when not NaN. -/
def coerceAmountToNumber : Option Json → Option ℚ
  | some (.num q) => some q
  | some (.str s) => parseJsNumber s
  | _ => none

/-- `getTxAction` (settle.ts): `tx?.action ?? tx`, kept only when the
candidate is an object. -/
def getTxAction (tx : Json) : Option (List (String × Json)) :=
  let candidate :=
    match jsGet tx "action" with
    | some .null => tx
    | some v => v
    | none => tx
  match candidate with
  | .obj fields => some fields
  | _ => none

/-- `getTxTimestamp` (settle.ts): `action.time` when it is a number, else
`tx.time`, else 0. -/
def getTxTimestamp (tx : Json) : ℚ :=
  match jsToNumber ((jsGet tx "action").bind (fun a => jsGet a "time")) with
  | some t => t
  | none =>
    match jsToNumber (txField tx "time") with
    | some t => t
    | none => 0

/-- `transactionMatchesPayment` (settle.ts): destination and token match the
requirements case-insensitively, amounts coincide numerically, the
signature-chain / hyperliquid-chain / action-type fields match when the
payload states them, and the transaction's time equals the payload's time
or nonce. -/
def transactionMatchesPayment (tx : Json) (payload : HlPayload)
    (r : PaymentRequirements) : Bool :=
  let action := getTxAction tx
  let aLook := fun (k : String) => action.bind (fun fields => jsLookup fields k)
  let pLook := fun (k : String) => jsLookup payload.action k
  let destinationMatches := equalsIgnoreCase (aLook "destination") (some (.str r.payTo))
  let tokenMatches := equalsIgnoreCase (aLook "token") (some (.str r.asset))
  let amountMatches :=
    match coerceAmountToNumber (pLook "amount"), coerceAmountToNumber (aLook "amount") with
    | some payloadAmount, some txAmount => txAmount = payloadAmount
    | _, _ => false
  let signatureChainMatches := valuesMatch (aLook "signatureChainId") (pLook "signatureChainId")
  let hyperliquidChainMatches := valuesMatch (aLook "hyperliquidChain") (pLook "hyperliquidChain")
  let typeMatches := valuesMatch (aLook "type") (pLook "type")
  let txTime :=
    match jsToNumber (aLook "time") with
    | some t => some t
    | none => jsToNumber (txField tx "time")
  let payloadTime := jsToNumber (pLook "time")
  -- `payload.nonce` is a number by type, so the nonce is never nullish and
  -- the vacuous `payloadTime == null && nonce == null` arm is unreachable.
  let timeOrNonceMatches :=
    match txTime with
    | some t => payloadTime = some t || t = (payload.nonce : ℚ)
    | none => false
  destinationMatches && tokenMatches && amountMatches && signatureChainMatches &&
    hyperliquidChainMatches && typeMatches && timeOrNonceMatches

/-- `extractUserTransactions` (settle.ts): the first of
`txs`/`userFlow`/`actions`/`transactions` that is an array. -/
def extractUserTransactions (details : Json) : List Json :=
  match jsGet details "txs" with
  | some (.arr xs) => xs
  | _ =>
    match jsGet details "userFlow" with
    | some (.arr xs) => xs
    | _ =>
      match jsGet details "actions" with
      | some (.arr xs) => xs
      | _ =>
        match jsGet details "transactions" with
        | some (.arr xs) => xs
        | _ => []

/-- Stable insertion of a transaction into a most-recent-first list: `x`
goes before the first element that is not strictly more recent, so earlier
elements stay ahead of equal-timestamp later ones, as the stable JS
`sort((a, b) => ts(b) - ts(a))` orders them. -/
def insertByTsDesc (x : Json) : List Json → List Json
  | [] => [x]
  | y :: ys =>
    if getTxTimestamp y ≤ getTxTimestamp x then x :: y :: ys
    else y :: insertByTsDesc x ys

/-- Stable most-recent-first sort by `getTxTimestamp`. -/
def sortByTsDesc : List Json → List Json
  | [] => []
  | x :: xs => insertByTsDesc x (sortByTsDesc xs)

/-- The first valid hash among the sorted matches:
`.map(tx => tx.hash).find(h => typeof h === "string" && isHexHash(h))`. -/
def firstValidHash : List Json → Option String
  | [] => none
  | tx :: rest =>
    match txField tx "hash" with
    | some (.str h) => if isHexHash h then some h else firstValidHash rest
    | _ => firstValidHash rest

/-- `findMatchingTransactionHash` (settle.ts): query the payer's
transaction history, keep the transactions matching the payment, prefer the
most recent, and return its hash; any lookup error is caught to no match. -/
def findMatchingTransactionHash (userDetails : Except Unit Json)
    (payload : HlPayload) (r : PaymentRequirements) : Option String :=
  match userDetails with
  | .error _ => none
  | .ok details =>
    let userTxs := extractUserTransactions details
    let matched := sortByTsDesc (userTxs.filter fun tx => transactionMatchesPayment tx payload r)
    firstValidHash matched

/-- Result of the confirmation poll. -/
inductive ConfirmationResult where
  | confirmed
  | notFound
  | timeout
deriving DecidableEq

/-- The retry loop of `confirmTransaction`, instrumented with the number of
detail lookups actually performed (second component). -/
def confirmAux (txLookup : Nat → Except String Unit) :
    Nat → Nat → ConfirmationResult × Nat
  | _, 0 => (.timeout, 0)
  | attempt, remaining + 1 =>
    match txLookup attempt with
    | .ok _ => (.confirmed, 1)
    | .error e =>
      if containsSub "not found".data (jsToLower e).data then (.notFound, 1)
      else
        let rest := confirmAux txLookup (attempt + 1) remaining
        (rest.1, rest.2 + 1)

/-- `confirmTransaction` (settle.ts): up to `CONFIRMATION_RETRIES` detail
lookups with a fixed `CONFIRMATION_DELAY_MS` pause between attempts; a
lookup error whose text contains "not found" short-circuits, success
confirms, and exhausting the attempts times out. -/
def confirmTransaction (txLookup : Nat → Except String Unit) :
    ConfirmationResult × Nat :=
  confirmAux txLookup 0 CONFIRMATION_RETRIES

/-- `failureResponse` (settle.ts): a structured failure, with the fallback
transaction id being the requirement's `payTo` and the payer recovered from
the payload when not already known. -/
def failureResponse (reason : String) (r : PaymentRequirements)
    (p : PaymentPayload) (txHash : Option String) (payer : Option String) :
    SettleResponse :=
  { success := false
    errorReason := some reason
    transaction := txHash.getD r.payTo
    network := r.network
    payer := payer.orElse fun _ => extractPayer p.payload }

/-- `settle` (schemes/exact/hyperliquid/facilitator/settle.ts). -/
def settle (eff : SettleEffects) (paymentPayload : PaymentPayload)
    (paymentRequirements : PaymentRequirements) : SettleResponse :=
  if ¬(paymentPayload.scheme = SCHEME ∧ paymentRequirements.scheme = SCHEME ∧
       paymentPayload.network = paymentRequirements.network ∧
       paymentRequirements.network ∈ SupportedHLNetworks) then
    failureResponse "invalid_exact_hl_network" paymentRequirements paymentPayload none none
  else
    match hlPayloadOf paymentPayload.payload with
    | none =>
      failureResponse "invalid_exact_hl_payload" paymentRequirements paymentPayload none none
    | some payload =>
      let payer := extractPayer paymentPayload.payload
      match submitExchange eff.exchange with
      | .error _ =>
        failureResponse "hl_exchange_error" paymentRequirements paymentPayload none none
      | .ok body =>
        let exchangeTxHash := extractExchangeTxHash body
        let matchedHash :=
          if payerTruthy payer then
            findMatchingTransactionHash eff.userDetails payload paymentRequirements
          else none
        if payerTruthy payer ∧ matchedHash = none then
          failureResponse "hl_tx_not_found" paymentRequirements paymentPayload
            exchangeTxHash payer
        else
          match matchedHash.orElse fun _ => exchangeTxHash with
          | none =>
            failureResponse "hl_tx_not_found" paymentRequirements paymentPayload
              exchangeTxHash payer
          | some txHash =>
            if ¬isHexHash txHash then
              failureResponse "hl_tx_not_found" paymentRequirements paymentPayload
                exchangeTxHash payer
            else
              match (confirmTransaction eff.txLookup).1 with
              | .notFound =>
                failureResponse "hl_tx_not_found" paymentRequirements paymentPayload
                  (some txHash) payer
              | .timeout =>
                failureResponse "hl_tx_unconfirmed" paymentRequirements paymentPayload
                  (some txHash) payer
              | .confirmed =>
                { success := true, transaction := txHash,
                  network := paymentRequirements.network, payer := payer,
                  errorReason := none }

/-! ## Spec-side companion definition and shared concrete sample inputs -/

/-- The amount conversion as the spec words it (spec §4.3 step 6): truncate
or zero-pad the fractional digits to exactly `decimals` digits, concatenate
them behind the whole digits, and read the concatenation as one integer.
Stated independently of `decimalToAtomic` to compare the two. -/
def specAtomicValue (whole frac : List Char) (decimals : Nat) : Int :=
  (natOfDigits
    (whole ++ (if decimals < frac.length then frac.take decimals
               else padRight frac decimals)) : Int)

/-- A well-known 64-hex-digit transaction hash used by concrete scenarios. -/
def txHashSample : String := "0x" ++ String.mk (List.replicate 64 '2')

/-- The requirements used by the repository's own verify/settle tests. -/
def hlReqSample : PaymentRequirements :=
  { scheme := "exact", network := "hyperliquid", maxAmountRequired := "1000000",
    payTo := "0xaaaaaaaaaaaaaaaaaaaaaaaaaaaaaaaaaaaaaaaa", maxTimeoutSeconds := 300,
    asset := "USDC:0xeb62eee3685fc4c43992febcd9e75443",
    extra := some [("decimals", Json.num 6)] }

/-- A spotSend action record over the sample requirements. -/
def hlActionSample (destination token amount : String) (time : ℚ) :
    List (String × Json) :=
  [("type", Json.str "spotSend"), ("signatureChainId", Json.str "0xa4b1"),
   ("hyperliquidChain", Json.str "Testnet"), ("destination", Json.str destination),
   ("token", Json.str token), ("amount", Json.str amount), ("time", Json.num time)]

/-- A payment payload wrapping an action record. -/
def hlPayloadSample (action : List (String × Json)) (nonce : Int) : PaymentPayload :=
  { x402Version := 1, scheme := "exact", network := "hyperliquid",
    payload := .hl { action := action, signature := .hexSig "0x1111", nonce := nonce,
                     user := some "0xbbbbbbbbbbbbbbbbbbbbbbbbbbbbbbbbbbbbbbbb" } }

/-- The settle-test payload: amount `"1"`, `time = nonce = 1700000000000`. -/
def settlePayloadSample : PaymentPayload :=
  hlPayloadSample
    (hlActionSample "0xaaaaaaaaaaaaaaaaaaaaaaaaaaaaaaaaaaaaaaaa"
      "USDC:0xeb62eee3685fc4c43992febcd9e75443" "1" 1700000000000)
    1700000000000

/-- A transaction-history record with the sample hash and a chosen
destination. -/
def historyTx (destination : String) : Json :=
  .obj [("hash", .str txHashSample), ("time", .num 1700000000000),
        ("action", .obj (hlActionSample destination
          "USDC:0xeb62eee3685fc4c43992febcd9e75443" "1" 1700000000000))]

/-- The exchange acknowledgment used by the settle tests: an `"ok"` status
marker and its own transaction hash. -/
def exchangeOkBody : Json :=
  .obj [("status", .str "ok"), ("response", .obj [("type", .str "default")]),
        ("txHash", .str txHashSample)]

/-- The sample requirements without the `extra.decimals` hint, forcing
decimals resolution through the asset string. -/
def hlReqSampleNoExtra : PaymentRequirements :=
  { hlReqSample with extra := none }

/-- A well-formed EVM payload whose authorization amount is far beyond the
2^53 range that a naive numeric encoding preserves. -/
def evmPayloadBig : PaymentPayload :=
  { x402Version := 1, scheme := "exact", network := "base",
    payload := .evm
      { signature := "0xdeadbeef",
        authorization :=
          [("from", .strV "0xf000000000000000000000000000000000000001"),
           ("to", .strV "0xf000000000000000000000000000000000000002"),
           ("value", .strV "123456789012345678901234567890"),
           ("validAfter", .strV "0"),
           ("validBefore", .strV "99999999999999999999"),
           ("nonce", .strV "0xabc")] } }

/-- A well-formed SVM payload. -/
def svmPayloadSimple : PaymentPayload :=
  { x402Version := 1, scheme := "exact", network := "solana",
    payload := .svm { transaction := "AfL2vYxq" } }

/-- A well-formed Hyperliquid payload. -/
def hlPayloadRoundtrip : PaymentPayload :=
  hlPayloadSample
    (hlActionSample "0xaaaaaaaaaaaaaaaaaaaaaaaaaaaaaaaaaaaaaaaa"
      "USDC:0xeb62eee3685fc4c43992febcd9e75443" "1.5" 1700000000000)
    1700000000000

/-- The settle-test payload without any payer identity: no `user` field on
the payload and none inside the action. -/
def settlePayloadNoUser : PaymentPayload :=
  { x402Version := 1, scheme := "exact", network := "hyperliquid",
    payload := .hl
      { action := hlActionSample "0xaaaaaaaaaaaaaaaaaaaaaaaaaaaaaaaaaaaaaaaa"
          "USDC:0xeb62eee3685fc4c43992febcd9e75443" "1" 1700000000000,
        signature := .hexSig "0x1111", nonce := 1700000000000, user := none } }

/-- An exchange acknowledgment whose transaction id is not a 64-hex-digit
hash. -/
def exchangeBadHashBody : Json :=
  .obj [("status", .str "ok"), ("txHash", .str "0xabc")]

/-! ## Helper lemmas -/

theorem natOfDigits_foldl (b : List Char) (acc : Nat) :
    b.foldl (fun a c => a * 10 + digitVal c) acc =
      acc * 10 ^ b.length + natOfDigits b := by
  induction b generalizing acc with
  | nil => simp [natOfDigits]
  | cons c b ih =>
    simp only [List.foldl_cons, List.length_cons, natOfDigits]
    rw [ih (acc * 10 + digitVal c), ih (0 * 10 + digitVal c)]
    ring

theorem natOfDigits_append (a b : List Char) :
    natOfDigits (a ++ b) = natOfDigits a * 10 ^ b.length + natOfDigits b := by
  unfold natOfDigits
  rw [List.foldl_append, natOfDigits_foldl]
  rfl

theorem isWsChar_eq_false_of_digit (c : Char) (h : isDigitChar c = true) :
    isWsChar c = false := by
  cases hc : isWsChar c
  · rfl
  · exfalso
    simp only [isWsChar, Bool.or_eq_true, decide_eq_true_eq] at hc
    rcases hc with ((rfl | rfl) | rfl) | rfl <;> exact absurd h (by decide)

theorem dropWhile_eq_self_of_none (p : Char → Bool) (l : List Char)
    (h : ∀ c ∈ l, p c = false) : l.dropWhile p = l := by
  cases l with
  | nil => rfl
  | cons c t =>
    rw [List.dropWhile_cons]
    simp [h c (List.mem_cons_self c t)]

theorem jsTrim_eq_self (l : List Char) (h : ∀ c ∈ l, isWsChar c = false) :
    jsTrim l = l := by
  unfold jsTrim
  rw [dropWhile_eq_self_of_none _ _ h,
      dropWhile_eq_self_of_none _ _ (fun c hc => h c (List.mem_reverse.mp hc)),
      List.reverse_reverse]

theorem takeWhile_append_all (p : Char → Bool) (a b : List Char)
    (h : ∀ c ∈ a, p c = true) : (a ++ b).takeWhile p = a ++ b.takeWhile p := by
  induction a with
  | nil => simp
  | cons c t ih =>
    have hc := h c (List.mem_cons_self c t)
    have ht := ih fun x hx => h x (List.mem_cons_of_mem c hx)
    simp [List.takeWhile_cons, hc, ht]

theorem dropWhile_append_all (p : Char → Bool) (a b : List Char)
    (h : ∀ c ∈ a, p c = true) : (a ++ b).dropWhile p = b.dropWhile p := by
  induction a with
  | nil => simp
  | cons c t ih =>
    have hc := h c (List.mem_cons_self c t)
    have ht := ih fun x hx => h x (List.mem_cons_of_mem c hx)
    simp [List.dropWhile_cons, hc, ht]

theorem digit_not_ws (l : List Char) (h : l.all isDigitChar = true) :
    ∀ c ∈ l, isWsChar c = false := by
  intro c hc
  exact isWsChar_eq_false_of_digit c (by
    rw [List.all_eq_true] at h
    exact h c hc)

theorem digit_ne_dot (l : List Char) (h : l.all isDigitChar = true) :
    ∀ c ∈ l, (decide ¬(c = '.')) = true := by
  intro c hc
  rw [List.all_eq_true] at h
  have hd := h c hc
  rcases Decidable.em (c = '.') with rfl | hne
  · exact absurd hd (by decide)
  · simpa using hne

theorem natOfDigits_replicate_zero (n : Nat) :
    natOfDigits (List.replicate n '0') = 0 := by
  induction n with
  | zero => rfl
  | succ n ih =>
    have : natOfDigits ('0' :: List.replicate n '0') =
        List.foldl (fun a c => a * 10 + digitVal c) (0 * 10 + digitVal '0')
          (List.replicate n '0') := rfl
    rw [List.replicate_succ, this, natOfDigits_foldl, ih]
    simp [digitVal]

theorem natOfDigits_emptyGuard (l : List Char) :
    natOfDigits (if l.isEmpty then ['0'] else l) = natOfDigits l := by
  cases l with
  | nil => decide
  | cons c t => rfl

/-- Length of the truncated-or-padded fraction. -/
theorem normalizedFraction_length (f : List Char) (d : Nat) :
    (if d < f.length then f.take d else padRight f d).length = d := by
  by_cases h : d < f.length
  · simp [h, List.length_take, Nat.min_def, Nat.le_of_lt h]
  · simp only [h, if_false, padRight, List.length_append, List.length_replicate]
    omega

/-- `decimalToAtomic` on a `whole.frac` digit numeral computes the
spec-side concatenation value. -/
theorem decimalToAtomic_eq_spec (w f : List Char) (d : Nat)
    (hw0 : w ≠ []) (hw : w.all isDigitChar = true)
    (hf0 : f ≠ []) (hf : f.all isDigitChar = true) :
    decimalToAtomic (String.mk (w ++ '.' :: f)) d = some (specAtomicValue w f d) := by
  have hdata : (String.mk (w ++ '.' :: f)).data = w ++ '.' :: f := rfl
  have hnws : ∀ c ∈ w ++ '.' :: f, isWsChar c = false := by
    intro c hc
    rcases List.mem_append.mp hc with hcw | hcf
    · exact digit_not_ws w hw c hcw
    · rcases List.mem_cons.mp hcf with rfl | hcf2
      · decide
      · exact digit_not_ws f hf c hcf2
  have htrim : jsTrim (w ++ '.' :: f) = w ++ '.' :: f := jsTrim_eq_self _ hnws
  have hdot : isDigitChar '.' = false := by decide
  have htake : (w ++ '.' :: f).takeWhile isDigitChar = w := by
    rw [takeWhile_append_all _ _ _ (List.all_eq_true.mp hw), List.takeWhile_cons]
    simp [hdot]
  have hdrop : (w ++ '.' :: f).dropWhile isDigitChar = '.' :: f := by
    rw [dropWhile_append_all _ _ _ (List.all_eq_true.mp hw), List.dropWhile_cons]
    simp [hdot]
  have hregex : decRegexOk (w ++ '.' :: f) = true := by
    unfold decRegexOk
    rw [htake, hdrop]
    simp [hw0, hf0, hf]
  have htakeDot : (w ++ '.' :: f).takeWhile (fun c => decide ¬(c = '.')) = w := by
    rw [takeWhile_append_all _ _ _ (digit_ne_dot w hw), List.takeWhile_cons]
    simp
  have hdropDot : (w ++ '.' :: f).dropWhile (fun c => decide ¬(c = '.')) = '.' :: f := by
    rw [dropWhile_append_all _ _ _ (digit_ne_dot w hw), List.dropWhile_cons]
    simp
  have hsplit : splitDot (w ++ '.' :: f) = (w, f) := by
    unfold splitDot
    simp only [htakeDot, hdropDot]
  unfold decimalToAtomic
  rw [hdata, htrim, if_pos hregex, hsplit]
  simp only [specAtomicValue, natOfDigits_emptyGuard, natOfDigits_append,
    normalizedFraction_length]
  push_cast
  ring_nf

/-- `decimalToAtomic` on a whole-digits numeral computes the spec-side
concatenation value with an empty fraction. -/
theorem decimalToAtomic_eq_spec_whole (w : List Char) (d : Nat)
    (hw0 : w ≠ []) (hw : w.all isDigitChar = true) :
    decimalToAtomic (String.mk w) d = some (specAtomicValue w [] d) := by
  have htrim : jsTrim w = w := jsTrim_eq_self _ (digit_not_ws w hw)
  have htake : w.takeWhile isDigitChar = w := by
    have := takeWhile_append_all isDigitChar w [] (List.all_eq_true.mp hw)
    simpa using this
  have hdrop : w.dropWhile isDigitChar = [] := by
    have := dropWhile_append_all isDigitChar w [] (List.all_eq_true.mp hw)
    simpa using this
  have hregex : decRegexOk w = true := by
    unfold decRegexOk
    rw [htake, hdrop]
    simp [hw0]
  have htakeDot : w.takeWhile (fun c => decide ¬(c = '.')) = w := by
    have := takeWhile_append_all _ w [] (digit_ne_dot w hw)
    simpa using this
  have hdropDot : w.dropWhile (fun c => decide ¬(c = '.')) = [] := by
    have := dropWhile_append_all _ w [] (digit_ne_dot w hw)
    simpa using this
  have hsplit : splitDot w = (w, []) := by
    unfold splitDot
    simp only [htakeDot, hdropDot]
  unfold decimalToAtomic
  have hdata : (String.mk w).data = w := rfl
  rw [hdata, htrim, if_pos hregex, hsplit]
  simp only [specAtomicValue, natOfDigits_emptyGuard, natOfDigits_append,
    normalizedFraction_length]
  push_cast
  ring_nf


/-- C3: with requirement `maxAmountRequired = "1000000"` and known
`decimals = 6`, the verify amount check accepts `"1"` and `"1.000001"` and
rejects `"0.999999"`; and in general, for a digit-numeral amount and a
parseable integral requirement, the check converts the amount by splitting
on the dot, truncating or zero-padding the fraction to exactly `decimals`
digits, concatenating into an integer, and comparing `>=` against the
requirement as exact integers. -/
theorem amount_check_boundary_and_conversion :
    (ensureAmountMeetsRequirement "1" "1000000" (some 6) = true ∧
     ensureAmountMeetsRequirement "1.000001" "1000000" (some 6) = true ∧
     ensureAmountMeetsRequirement "0.999999" "1000000" (some 6) = false) ∧
    (∀ (w f : List Char) (d : Nat) (req : String) (reqVal : Int),
      w ≠ [] → w.all isDigitChar = true → f ≠ [] → f.all isDigitChar = true →
      jsBigInt req = some reqVal →
      ensureAmountMeetsRequirement (String.mk (w ++ '.' :: f)) req (some (d : ℚ)) =
        decide (reqVal ≤ specAtomicValue w f d) ∧
      ensureAmountMeetsRequirement (String.mk w) req (some (d : ℚ)) =
        decide (reqVal ≤ specAtomicValue w [] d)) := by
  constructor
  · refine ⟨by decide, by decide, by decide⟩
  · intro w f d req reqVal hw0 hw hf0 hf hreq
    have hd0 : ¬((d : ℚ) < 0) := (Nat.cast_nonneg d).not_lt
    have hden : ((d : ℚ)).den = 1 := Rat.den_natCast d
    have hnum : ((d : ℚ)).num.toNat = d := by
      simp [Rat.num_natCast]
    constructor
    · show (if (d : ℚ) < 0 then numFallbackGe (String.mk (w ++ '.' :: f)) req
        else if ((d : ℚ)).den ≠ 1 then false
        else match decimalToAtomic (String.mk (w ++ '.' :: f)) ((d : ℚ)).num.toNat,
              jsBigInt req with
          | some payloadAtomic, some required => decide (required ≤ payloadAtomic)
          | _, _ => false) = _
      rw [if_neg hd0, if_neg (by simp [hden]), hnum,
          decimalToAtomic_eq_spec w f d hw0 hw hf0 hf, hreq]
    · show (if (d : ℚ) < 0 then numFallbackGe (String.mk w) req
        else if ((d : ℚ)).den ≠ 1 then false
        else match decimalToAtomic (String.mk w) ((d : ℚ)).num.toNat,
              jsBigInt req with
          | some payloadAtomic, some required => decide (required ≤ payloadAtomic)
          | _, _ => false) = _
      rw [if_neg hd0, if_neg (by simp [hden]), hnum,
          decimalToAtomic_eq_spec_whole w d hw0 hw, hreq]

/-- Witness for C3: the boundary case and the general conversion law
instantiated at amount `"1.5"` against requirement `"1000000"` with six
decimals. -/
theorem amount_check_boundary_and_conversion_witness :
    ensureAmountMeetsRequirement "1" "1000000" (some 6) = true ∧
    ensureAmountMeetsRequirement (String.mk (['1'] ++ '.' :: ['5'])) "1000000"
      (some ((6 : ℕ) : ℚ)) = decide ((1000000 : Int) ≤ specAtomicValue ['1'] ['5'] 6) :=
  ⟨amount_check_boundary_and_conversion.1.1,
   (amount_check_boundary_and_conversion.2 ['1'] ['5'] 6 "1000000" 1000000
     (by decide) (by decide) (by decide) (by decide) (by decide)).1⟩

/-- Reduction of `verify` once the shape/network guard and the three
action-field reads are fixed: the remaining checks run in source order
(recipient, asset, amount, TTL). -/
theorem verify_reduce (now : Int) (fetchDecimals : String → Option ℚ)
    (p : PaymentPayload) (r : PaymentRequirements) (h : HlPayload)
    (dest token amount : String)
    (hs : p.scheme = SCHEME) (hrs : r.scheme = SCHEME)
    (hn : p.network = r.network) (hm : r.network ∈ SupportedHLNetworks)
    (hpl : p.payload = .hl h)
    (hdest : actionStrField h.action "destination" = some dest)
    (htok : actionStrField h.action "token" = some token)
    (hamt : actionStrField h.action "amount" = some amount) :
    verify now fetchDecimals p r =
      (if jsToLower dest ≠ jsToLower r.payTo then
        { isValid := false,
          invalidReason := some "invalid_exact_hl_payload_recipient_mismatch",
          payer := none }
      else if token ≠ r.asset then
        { isValid := false,
          invalidReason := some "invalid_exact_hl_payload_asset_mismatch",
          payer := none }
      else if ¬ensureAmountMeetsRequirement amount r.maxAmountRequired
          (resolveDecimals fetchDecimals r).1 then
        { isValid := false,
          invalidReason := some "invalid_exact_hl_payload_amount_mismatch",
          payer := none }
      else if ¬withinTtl (jsLookup h.action "time") r.maxTimeoutSeconds now then
        { isValid := false, invalidReason := some "payment_expired", payer := none }
      else
        { isValid := true, invalidReason := none, payer := extractPayerHl h }) := by
  unfold verify
  rw [if_neg (not_not_intro ⟨hs, hrs, hn, hm⟩), hpl]
  simp only [hlPayloadOf]
  rw [hdest, htok, hamt]

/-- C2: verify runs its checks in the strict source order (shape/network,
payload fields, recipient, asset, amount, TTL) and the first failing check
determines the reason: past the shape stage, a recipient mismatch is
reported whatever the token, amount and time are; an asset mismatch is
reported only once the recipient matches, whatever the amount and time are;
an amount failure is reported only once recipient and asset match, whatever
the time is. In particular a payload violating recipient, asset and amount
simultaneously reports the recipient mismatch. -/
theorem verify_first_failing_check_wins (now : Int)
    (fetchDecimals : String → Option ℚ) (p : PaymentPayload)
    (r : PaymentRequirements) (h : HlPayload) (dest token amount : String)
    (hs : p.scheme = SCHEME) (hrs : r.scheme = SCHEME)
    (hn : p.network = r.network) (hm : r.network ∈ SupportedHLNetworks)
    (hpl : p.payload = .hl h)
    (hdest : actionStrField h.action "destination" = some dest)
    (htok : actionStrField h.action "token" = some token)
    (hamt : actionStrField h.action "amount" = some amount) :
    (jsToLower dest ≠ jsToLower r.payTo →
      verify now fetchDecimals p r =
        { isValid := false,
          invalidReason := some "invalid_exact_hl_payload_recipient_mismatch",
          payer := none }) ∧
    (jsToLower dest = jsToLower r.payTo → token ≠ r.asset →
      verify now fetchDecimals p r =
        { isValid := false,
          invalidReason := some "invalid_exact_hl_payload_asset_mismatch",
          payer := none }) ∧
    (jsToLower dest = jsToLower r.payTo → token = r.asset →
      ensureAmountMeetsRequirement amount r.maxAmountRequired
        (resolveDecimals fetchDecimals r).1 = false →
      verify now fetchDecimals p r =
        { isValid := false,
          invalidReason := some "invalid_exact_hl_payload_amount_mismatch",
          payer := none }) := by
  rw [verify_reduce now fetchDecimals p r h dest token amount
    hs hrs hn hm hpl hdest htok hamt]
  refine ⟨fun hne => ?_, fun heq hta => ?_, fun heq hta hfail => ?_⟩
  · rw [if_pos hne]
  · rw [if_neg (not_not_intro heq), if_pos hta]
  · rw [if_neg (not_not_intro heq), if_neg (not_not_intro hta), if_pos (by simp [hfail])]

/-- Witness for C2: a concrete payload that simultaneously violates
recipient, asset and amount reports the recipient mismatch. -/
theorem verify_first_failing_check_wins_witness :
    verify 0 (fun _ => none)
      (hlPayloadSample (hlActionSample "0xcccccccccccccccccccccccccccccccccccccccc"
        "USDT:0xeb62eee3685fc4c43992febcd9e75443" "0.5" 0) 1) hlReqSample =
      { isValid := false,
        invalidReason := some "invalid_exact_hl_payload_recipient_mismatch",
        payer := none } :=
  (verify_first_failing_check_wins 0 (fun _ => none)
    (hlPayloadSample (hlActionSample "0xcccccccccccccccccccccccccccccccccccccccc"
      "USDT:0xeb62eee3685fc4c43992febcd9e75443" "0.5" 0) 1) hlReqSample
    ⟨hlActionSample "0xcccccccccccccccccccccccccccccccccccccccc"
        "USDT:0xeb62eee3685fc4c43992febcd9e75443" "0.5" 0, .hexSig "0x1111", 1,
      some "0xbbbbbbbbbbbbbbbbbbbbbbbbbbbbbbbbbbbbbbbb"⟩
    "0xcccccccccccccccccccccccccccccccccccccccc"
    "USDT:0xeb62eee3685fc4c43992febcd9e75443" "0.5"
    rfl rfl rfl (by decide) rfl (by decide) (by decide) (by decide)).1 (by decide)

theorem data_isEmpty_false_of_ne (s : String) (h : s ≠ "") :
    s.data.isEmpty = false := by
  cases s with
  | mk data =>
    cases data with
    | nil => exact absurd rfl h
    | cons c t => rfl

/-- C4 (amended): decimals resolution prefers a numeric
`requirements.extra.decimals` with no lookup; otherwise a token id is
extracted from the asset string — the part after the colon of a two-part
`SYMBOL:TOKENID` split, else the part before the first colon (the whole
asset when colon-free) when it starts with `0x` — and exactly one
token-info lookup is performed with it when it is non-empty; when no token
id is extracted (empty asset, or a first part not starting with `0x` when
the split is not two-part), or the extracted id is the empty string (as in
`"USDC:"`), decimals is left undefined and no lookup occurs. -/
theorem resolveDecimals_characterization (fetchDecimals : String → Option ℚ)
    (r : PaymentRequirements) :
    match extraDecimals r with
    | some d => resolveDecimals fetchDecimals r = (some d, [])
    | none =>
      match extractHyperliquidTokenId r.asset with
      | some tokenId =>
        if tokenId = "" then resolveDecimals fetchDecimals r = (none, [])
        else resolveDecimals fetchDecimals r = (fetchDecimals tokenId, [tokenId])
      | none => resolveDecimals fetchDecimals r = (none, []) := by
  cases hE : extraDecimals r with
  | some d => simp [resolveDecimals, hE]
  | none =>
    cases hT : extractHyperliquidTokenId r.asset with
    | some tokenId =>
      show if tokenId = "" then resolveDecimals fetchDecimals r = (none, [])
        else resolveDecimals fetchDecimals r = (fetchDecimals tokenId, [tokenId])
      by_cases hempty : tokenId = ""
      · rw [if_pos hempty]
        subst hempty
        simp [resolveDecimals, hE, hT]
      · rw [if_neg hempty]
        simp [resolveDecimals, hE, hT, data_isEmpty_false_of_ne tokenId hempty]
    | none => simp [resolveDecimals, hE, hT]

/-- Counterexample to C4 as stated: for the compound asset
`"USDC:0xeb62eee3685fc4c43992febcd9e75443"` with no `extra.decimals`, the
claim says no token-info lookup occurs and decimals stays undefined, but
`resolveDecimals` extracts the hex suffix, performs exactly one lookup with
it, and uses the fetched decimals. -/
theorem resolveDecimals_compound_counterexample :
    (resolveDecimals (fun _ => some 6) hlReqSampleNoExtra).2 ≠ [] ∧
    (resolveDecimals (fun _ => some 6) hlReqSampleNoExtra).1 ≠ none ∧
    resolveDecimals (fun _ => some 6) hlReqSampleNoExtra =
      (some 6, ["0xeb62eee3685fc4c43992febcd9e75443"]) := by
  refine ⟨by decide, by decide, by decide⟩

/-- C6: past the shape checks, verify compares the action's destination to
`payTo` case-insensitively — rejecting with the recipient-mismatch reason
exactly on lower-cased inequality, and never reporting a recipient mismatch
for a destination differing only in case — while the action's token is
compared to `asset` by exact string equality, so a token differing from the
asset even only in letter case is rejected with the asset-mismatch
reason. -/
theorem verify_recipient_caseless_asset_exact (now : Int)
    (fetchDecimals : String → Option ℚ) (p : PaymentPayload)
    (r : PaymentRequirements) (h : HlPayload) (dest token amount : String)
    (hs : p.scheme = SCHEME) (hrs : r.scheme = SCHEME)
    (hn : p.network = r.network) (hm : r.network ∈ SupportedHLNetworks)
    (hpl : p.payload = .hl h)
    (hdest : actionStrField h.action "destination" = some dest)
    (htok : actionStrField h.action "token" = some token)
    (hamt : actionStrField h.action "amount" = some amount) :
    (jsToLower dest ≠ jsToLower r.payTo →
      verify now fetchDecimals p r =
        { isValid := false,
          invalidReason := some "invalid_exact_hl_payload_recipient_mismatch",
          payer := none }) ∧
    (jsToLower dest = jsToLower r.payTo → token ≠ r.asset →
      verify now fetchDecimals p r =
        { isValid := false,
          invalidReason := some "invalid_exact_hl_payload_asset_mismatch",
          payer := none }) ∧
    (jsToLower dest = jsToLower r.payTo →
      verify now fetchDecimals p r ≠
        { isValid := false,
          invalidReason := some "invalid_exact_hl_payload_recipient_mismatch",
          payer := none }) := by
  rw [verify_reduce now fetchDecimals p r h dest token amount
    hs hrs hn hm hpl hdest htok hamt]
  refine ⟨fun hne => ?_, fun heq hta => ?_, fun heq => ?_⟩
  · rw [if_pos hne]
  · rw [if_neg (not_not_intro heq), if_pos hta]
  · rw [if_neg (not_not_intro heq)]
    split
    · simp
    · split
      · simp
      · split
        · simp
        · simp

/-- Witness for C6: a destination differing from `payTo` only in letter
case passes the recipient check, and a token differing from the asset only
in letter case is rejected with the asset mismatch. -/
theorem verify_recipient_caseless_asset_exact_witness :
    verify 0 (fun _ => none)
      (hlPayloadSample (hlActionSample "0xAAAAAAAAAAAAAAAAAAAAAAAAAAAAAAAAAAAAAAAA"
        "usdc:0xeb62eee3685fc4c43992febcd9e75443" "1.5" 0) 1) hlReqSample =
      { isValid := false,
        invalidReason := some "invalid_exact_hl_payload_asset_mismatch",
        payer := none } :=
  (verify_recipient_caseless_asset_exact 0 (fun _ => none)
    (hlPayloadSample (hlActionSample "0xAAAAAAAAAAAAAAAAAAAAAAAAAAAAAAAAAAAAAAAA"
      "usdc:0xeb62eee3685fc4c43992febcd9e75443" "1.5" 0) 1) hlReqSample
    ⟨hlActionSample "0xAAAAAAAAAAAAAAAAAAAAAAAAAAAAAAAAAAAAAAAA"
        "usdc:0xeb62eee3685fc4c43992febcd9e75443" "1.5" 0, .hexSig "0x1111", 1,
      some "0xbbbbbbbbbbbbbbbbbbbbbbbbbbbbbbbbbbbbbbbb"⟩
    "0xAAAAAAAAAAAAAAAAAAAAAAAAAAAAAAAAAAAAAAAA"
    "usdc:0xeb62eee3685fc4c43992febcd9e75443" "1.5"
    rfl rfl rfl (by decide) rfl (by decide) (by decide) (by decide)).2.1
    (by decide) (by decide)

/-- The `time` entry of a sample action record. -/
theorem jsLookup_hlActionSample_time (d t a : String) (q : ℚ) :
    jsLookup (hlActionSample d t a q) "time" = some (.num q) := rfl

/-- C5: once every earlier check passes, verify rejects with
`payment_expired` exactly when the action's `time` plus
`maxTimeoutSeconds * 1000` milliseconds is strictly before the current
time; a missing or non-numeric `time` is itself rejected as expired; and
with `maxTimeoutSeconds = 300`, `time = now - 300001` is rejected while
`time = now - 299000` is accepted. -/
theorem verify_expiry_boundary (now : Int)
    (fetchDecimals : String → Option ℚ) (p : PaymentPayload)
    (r : PaymentRequirements) (h : HlPayload) (dest token amount : String)
    (hs : p.scheme = SCHEME) (hrs : r.scheme = SCHEME)
    (hn : p.network = r.network) (hm : r.network ∈ SupportedHLNetworks)
    (hpl : p.payload = .hl h)
    (hdest : actionStrField h.action "destination" = some dest)
    (htok : actionStrField h.action "token" = some token)
    (hamt : actionStrField h.action "amount" = some amount)
    (hrec : jsToLower dest = jsToLower r.payTo) (hasset : token = r.asset)
    (hok : ensureAmountMeetsRequirement amount r.maxAmountRequired
      (resolveDecimals fetchDecimals r).1 = true) :
    (∀ t : ℚ, jsLookup h.action "time" = some (.num t) →
      (verify now fetchDecimals p r =
          { isValid := false, invalidReason := some "payment_expired", payer := none } ↔
        t + r.maxTimeoutSeconds * 1000 < (now : ℚ))) ∧
    ((∀ q : ℚ, jsLookup h.action "time" ≠ some (.num q)) →
      verify now fetchDecimals p r =
        { isValid := false, invalidReason := some "payment_expired", payer := none }) ∧
    (r.maxTimeoutSeconds = 300 →
      (jsLookup h.action "time" = some (.num ((now : ℚ) - 300001)) →
        verify now fetchDecimals p r =
          { isValid := false, invalidReason := some "payment_expired", payer := none }) ∧
      (jsLookup h.action "time" = some (.num ((now : ℚ) - 299000)) →
        verify now fetchDecimals p r =
          { isValid := true, invalidReason := none, payer := extractPayerHl h })) := by
  rw [verify_reduce now fetchDecimals p r h dest token amount
    hs hrs hn hm hpl hdest htok hamt,
    if_neg (not_not_intro hrec), if_neg (not_not_intro hasset),
    if_neg (by simp [hok])]
  refine ⟨?_, ?_, ?_⟩
  · intro t ht
    rw [ht]
    by_cases hle : (now : ℚ) ≤ t + r.maxTimeoutSeconds * 1000
    · rw [if_neg (by simp [withinTtl, hle])]
      constructor
      · intro hc
        simp at hc
      · intro hlt
        exfalso
        linarith
    · rw [if_pos (by simp [withinTtl, hle])]
      simp [not_le.mp hle]
  · intro hnone
    have hfalse : withinTtl (jsLookup h.action "time") r.maxTimeoutSeconds now = false := by
      cases hx : jsLookup h.action "time" with
      | none => rfl
      | some j =>
        cases j with
        | num q => exact absurd hx (hnone q)
        | null => rfl
        | bool b => rfl
        | str s => rfl
        | arr xs => rfl
        | obj fs => rfl
    rw [if_pos (by simp [hfalse])]
  · intro h300
    constructor
    · intro ht
      rw [ht, h300, if_pos (by simp [withinTtl]; linarith)]
    · intro ht
      rw [ht, h300, if_neg (by simp [withinTtl]; linarith)]

/-- Witness for C5: over the sample requirements at `now = 1000000` the
boundary times behave as stated — `time = now - 300001` is expired,
`time = now - 299000` is accepted. -/
theorem verify_expiry_boundary_witness :
    (verify 1000000 (fun _ => none)
      (hlPayloadSample (hlActionSample "0xaaaaaaaaaaaaaaaaaaaaaaaaaaaaaaaaaaaaaaaa"
        "USDC:0xeb62eee3685fc4c43992febcd9e75443" "1.5" 699999) 1) hlReqSample =
      { isValid := false, invalidReason := some "payment_expired", payer := none }) ∧
    (verify 1000000 (fun _ => none)
      (hlPayloadSample (hlActionSample "0xaaaaaaaaaaaaaaaaaaaaaaaaaaaaaaaaaaaaaaaa"
        "USDC:0xeb62eee3685fc4c43992febcd9e75443" "1.5" 701000) 1) hlReqSample =
      { isValid := true, invalidReason := none,
        payer := some "0xbbbbbbbbbbbbbbbbbbbbbbbbbbbbbbbbbbbbbbbb" }) := by
  constructor
  · exact ((verify_expiry_boundary 1000000 (fun _ => none)
      (hlPayloadSample (hlActionSample "0xaaaaaaaaaaaaaaaaaaaaaaaaaaaaaaaaaaaaaaaa"
        "USDC:0xeb62eee3685fc4c43992febcd9e75443" "1.5" 699999) 1) hlReqSample
      ⟨hlActionSample "0xaaaaaaaaaaaaaaaaaaaaaaaaaaaaaaaaaaaaaaaa"
          "USDC:0xeb62eee3685fc4c43992febcd9e75443" "1.5" 699999, .hexSig "0x1111", 1,
        some "0xbbbbbbbbbbbbbbbbbbbbbbbbbbbbbbbbbbbbbbbb"⟩
      "0xaaaaaaaaaaaaaaaaaaaaaaaaaaaaaaaaaaaaaaaa"
      "USDC:0xeb62eee3685fc4c43992febcd9e75443" "1.5"
      rfl rfl rfl (by decide) rfl (by decide) (by decide) (by decide)
      (by decide) (by decide) (by decide)).2.2 (by decide)).1
      (by rw [jsLookup_hlActionSample_time]; norm_num)
  · exact ((verify_expiry_boundary 1000000 (fun _ => none)
      (hlPayloadSample (hlActionSample "0xaaaaaaaaaaaaaaaaaaaaaaaaaaaaaaaaaaaaaaaa"
        "USDC:0xeb62eee3685fc4c43992febcd9e75443" "1.5" 701000) 1) hlReqSample
      ⟨hlActionSample "0xaaaaaaaaaaaaaaaaaaaaaaaaaaaaaaaaaaaaaaaa"
          "USDC:0xeb62eee3685fc4c43992febcd9e75443" "1.5" 701000, .hexSig "0x1111", 1,
        some "0xbbbbbbbbbbbbbbbbbbbbbbbbbbbbbbbbbbbbbbbb"⟩
      "0xaaaaaaaaaaaaaaaaaaaaaaaaaaaaaaaaaaaaaaaa"
      "USDC:0xeb62eee3685fc4c43992febcd9e75443" "1.5"
      rfl rfl rfl (by decide) rfl (by decide) (by decide) (by decide)
      (by decide) (by decide) (by decide)).2.2 (by decide)).2
      (by rw [jsLookup_hlActionSample_time]; norm_num)

theorem map_stringifyAuthValue_eq (entries : List (String × AuthValue))
    (h : authAllStr entries) :
    entries.map (fun kv => (kv.1, stringifyAuthValue kv.2)) = entries := by
  induction entries with
  | nil => rfl
  | cons kv rest ih =>
    obtain ⟨s, hs⟩ := h kv (List.mem_cons_self kv rest)
    have hrest := ih fun x hx => h x (List.mem_cons_of_mem kv hx)
    rcases kv with ⟨k, v⟩
    simp only at hs
    subst hs
    simp only [List.map_cons, hrest]
    rfl

theorem authEntries_roundtrip (entries : List (String × AuthValue))
    (h : authAllStr entries) :
    ∃ es, authEntriesToJson entries = some es ∧ authEntriesParse es = some entries := by
  induction entries with
  | nil => exact ⟨[], rfl, rfl⟩
  | cons kv rest ih =>
    obtain ⟨s, hs⟩ := h kv (List.mem_cons_self kv rest)
    obtain ⟨es, hto, hpar⟩ := ih fun x hx => h x (List.mem_cons_of_mem kv hx)
    rcases kv with ⟨k, v⟩
    simp only at hs
    subst hs
    refine ⟨(k, .str s) :: es, ?_, ?_⟩
    · simp [authEntriesToJson, authValueToJson, hto]
    · simp [authEntriesParse, hpar]

theorem evm_mem_allNetworks : ∀ n ∈ SupportedEVMNetworks, n ∈ allNetworks := by decide

theorem svm_mem_allNetworks : ∀ n ∈ SupportedSVMNetworks, n ∈ allNetworks := by decide

theorem hl_mem_allNetworks : ∀ n ∈ SupportedHLNetworks, n ∈ allNetworks := by decide

theorem svm_not_evm : ∀ n ∈ SupportedSVMNetworks, n ∉ SupportedEVMNetworks := by decide

theorem hl_not_evm : ∀ n ∈ SupportedHLNetworks, n ∉ SupportedEVMNetworks := by decide

theorem hl_not_svm : ∀ n ∈ SupportedHLNetworks, n ∉ SupportedSVMNetworks := by decide

/-- C1: for every well-formed `PaymentPayload` of every network family
(EVM, SVM, Hyperliquid), `decode(encode(p)) = p`. Amount fields are carried
as strings throughout, so payloads whose big-integer amounts exceed the
2^53-exact range round-trip without precision loss; the EVM branch's
bigint-stringifying pre-serialization is the identity on schema-valid
(string-carried) payloads. -/
theorem payment_codec_roundtrip (p : PaymentPayload) (hwf : wfPaymentPayload p) :
    (encodePayment p).bind decodePayment = some p := by
  obtain ⟨hver, hsch, hrest⟩ := hwf
  rcases p with ⟨ver, sch, net, pl⟩
  simp only at hver hsch hrest
  subst hver
  subst hsch
  cases pl with
  | evm e =>
    obtain ⟨hmem, hstr⟩ := hrest
    rcases e with ⟨sig, auth⟩
    obtain ⟨es, hto, hpar⟩ := authEntries_roundtrip auth hstr
    have henc : encodePayment ⟨1, SCHEME, net, .evm ⟨sig, auth⟩⟩ =
        some (envelopeJson ⟨1, SCHEME, net, .evm ⟨sig, auth⟩⟩
          (Json.obj [("signature", .str sig), ("authorization", .obj es)])) := by
      unfold encodePayment
      rw [if_pos hmem]
      simp only [map_stringifyAuthValue_eq auth hstr, exactPayloadToJson, hto]
      simp
    rw [henc]
    simp only [Option.some_bind]
    unfold decodePayment envelopeJson
    simp only [jsLookup]
    simp only [String.reduceEq, if_false, if_true, reduceIte]
    rw [if_pos hmem]
    unfold paymentPayloadParse
    simp only [jsLookup]
    simp only [String.reduceEq, if_false, if_true, reduceIte]
    rw [if_pos ⟨by norm_num [x402VersionsQ], by decide, evm_mem_allNetworks net hmem⟩]
    unfold exactPayloadParse evmPayloadParse
    simp only [jsLookup]
    simp only [String.reduceEq, if_false, if_true, reduceIte]
    simp [hpar]
  | svm s =>
    have hmem := hrest
    rcases s with ⟨t⟩
    have hnotEvm := svm_not_evm net hmem
    have henc : encodePayment ⟨1, SCHEME, net, .svm ⟨t⟩⟩ =
        some (envelopeJson ⟨1, SCHEME, net, .svm ⟨t⟩⟩
          (Json.obj [("transaction", .str t)])) := by
      unfold encodePayment
      rw [if_neg hnotEvm, if_pos hmem]
      simp [exactPayloadToJson]
    rw [henc]
    simp only [Option.some_bind]
    unfold decodePayment envelopeJson
    simp only [jsLookup]
    simp only [String.reduceEq, if_false, if_true, reduceIte]
    rw [if_neg hnotEvm, if_pos hmem]
    unfold paymentPayloadParse
    simp only [jsLookup]
    simp only [String.reduceEq, if_false, if_true, reduceIte]
    rw [if_pos ⟨by norm_num [x402VersionsQ], by decide, svm_mem_allNetworks net hmem⟩]
    unfold exactPayloadParse evmPayloadParse svmPayloadParse
    simp only [jsLookup]
    simp only [String.reduceEq, if_false, if_true, reduceIte]
    simp
  | hl h =>
    obtain ⟨hmem, hnonce, hsig⟩ := hrest
    rcases h with ⟨action, sigv, nonce, user⟩
    have hnonce2 : 0 < nonce := hnonce
    have hne := hl_not_evm net hmem
    have hns := hl_not_svm net hmem
    have hguard : ((1 : Int) : ℚ) ∈ x402VersionsQ ∧ SCHEME ∈ schemes ∧
        net ∈ allNetworks :=
      ⟨by norm_num [x402VersionsQ], by decide, hl_mem_allNetworks net hmem⟩
    have hden : (((nonce : Int) : ℚ)).den = 1 ∧ 0 < (((nonce : Int) : ℚ)).num := by
      refine ⟨Rat.intCast_den nonce, ?_⟩
      rw [Rat.intCast_num]
      exact hnonce
    cases user with
    | none =>
      cases sigv with
      | hexSig sg =>
        simp only at hsig
        have henc : encodePayment ⟨1, SCHEME, net, .hl ⟨action, .hexSig sg, nonce, none⟩⟩ =
            some (envelopeJson ⟨1, SCHEME, net, .hl ⟨action, .hexSig sg, nonce, none⟩⟩
              (Json.obj [("action", .obj action), ("signature", .str sg),
                ("nonce", .num ((nonce : Int) : ℚ))])) := by
          unfold encodePayment
          rw [if_neg hne, if_neg hns, if_pos hmem]
          simp [exactPayloadToJson, sigToJson]
        rw [henc]
        simp only [Option.some_bind]
        unfold decodePayment envelopeJson
        simp only [jsLookup]
        simp only [String.reduceEq, if_false, if_true, reduceIte]
        rw [if_neg hne, if_neg hns, if_pos hmem]
        unfold paymentPayloadParse
        simp only [jsLookup]
        simp only [String.reduceEq, if_false, if_true, reduceIte]
        rw [if_pos hguard]
        unfold exactPayloadParse evmPayloadParse svmPayloadParse hlPayloadParse
        simp only [jsLookup]
        simp only [String.reduceEq, if_false, if_true, reduceIte]
        simp [sigParse, hsig, hden, hnonce2]
      | rsvSig rr ss vv =>
        have henc : encodePayment ⟨1, SCHEME, net, .hl ⟨action, .rsvSig rr ss vv, nonce, none⟩⟩ =
            some (envelopeJson ⟨1, SCHEME, net, .hl ⟨action, .rsvSig rr ss vv, nonce, none⟩⟩
              (Json.obj [("action", .obj action),
                ("signature", .obj [("r", .str rr), ("s", .str ss), ("v", .num vv)]),
                ("nonce", .num ((nonce : Int) : ℚ))])) := by
          unfold encodePayment
          rw [if_neg hne, if_neg hns, if_pos hmem]
          simp [exactPayloadToJson, sigToJson]
        rw [henc]
        simp only [Option.some_bind]
        unfold decodePayment envelopeJson
        simp only [jsLookup]
        simp only [String.reduceEq, if_false, if_true, reduceIte]
        rw [if_neg hne, if_neg hns, if_pos hmem]
        unfold paymentPayloadParse
        simp only [jsLookup]
        simp only [String.reduceEq, if_false, if_true, reduceIte]
        rw [if_pos hguard]
        unfold exactPayloadParse evmPayloadParse svmPayloadParse hlPayloadParse
        simp only [jsLookup]
        simp only [String.reduceEq, if_false, if_true, reduceIte]
        simp [sigParse, jsLookup, hden, hnonce2]
    | some u =>
      cases sigv with
      | hexSig sg =>
        simp only at hsig
        have henc : encodePayment ⟨1, SCHEME, net, .hl ⟨action, .hexSig sg, nonce, some u⟩⟩ =
            some (envelopeJson ⟨1, SCHEME, net, .hl ⟨action, .hexSig sg, nonce, some u⟩⟩
              (Json.obj [("action", .obj action), ("signature", .str sg),
                ("nonce", .num ((nonce : Int) : ℚ)), ("user", .str u)])) := by
          unfold encodePayment
          rw [if_neg hne, if_neg hns, if_pos hmem]
          simp [exactPayloadToJson, sigToJson]
        rw [henc]
        simp only [Option.some_bind]
        unfold decodePayment envelopeJson
        simp only [jsLookup]
        simp only [String.reduceEq, if_false, if_true, reduceIte]
        rw [if_neg hne, if_neg hns, if_pos hmem]
        unfold paymentPayloadParse
        simp only [jsLookup]
        simp only [String.reduceEq, if_false, if_true, reduceIte]
        rw [if_pos hguard]
        unfold exactPayloadParse evmPayloadParse svmPayloadParse hlPayloadParse
        simp only [jsLookup]
        simp only [String.reduceEq, if_false, if_true, reduceIte]
        simp [sigParse, hsig, hden, hnonce2]
      | rsvSig rr ss vv =>
        have henc : encodePayment ⟨1, SCHEME, net, .hl ⟨action, .rsvSig rr ss vv, nonce, some u⟩⟩ =
            some (envelopeJson ⟨1, SCHEME, net, .hl ⟨action, .rsvSig rr ss vv, nonce, some u⟩⟩
              (Json.obj [("action", .obj action),
                ("signature", .obj [("r", .str rr), ("s", .str ss), ("v", .num vv)]),
                ("nonce", .num ((nonce : Int) : ℚ)), ("user", .str u)])) := by
          unfold encodePayment
          rw [if_neg hne, if_neg hns, if_pos hmem]
          simp [exactPayloadToJson, sigToJson]
        rw [henc]
        simp only [Option.some_bind]
        unfold decodePayment envelopeJson
        simp only [jsLookup]
        simp only [String.reduceEq, if_false, if_true, reduceIte]
        rw [if_neg hne, if_neg hns, if_pos hmem]
        unfold paymentPayloadParse
        simp only [jsLookup]
        simp only [String.reduceEq, if_false, if_true, reduceIte]
        rw [if_pos hguard]
        unfold exactPayloadParse evmPayloadParse svmPayloadParse hlPayloadParse
        simp only [jsLookup]
        simp only [String.reduceEq, if_false, if_true, reduceIte]
        simp [sigParse, jsLookup, hden, hnonce2]

/-- Witness for C1: one concrete payload per family round-trips, including
an EVM authorization whose `value` has thirty digits. -/
theorem payment_codec_roundtrip_witness :
    wfPaymentPayload evmPayloadBig ∧
    (encodePayment evmPayloadBig).bind decodePayment = some evmPayloadBig ∧
    wfPaymentPayload svmPayloadSimple ∧
    (encodePayment svmPayloadSimple).bind decodePayment = some svmPayloadSimple ∧
    wfPaymentPayload hlPayloadRoundtrip ∧
    (encodePayment hlPayloadRoundtrip).bind decodePayment = some hlPayloadRoundtrip :=
  ⟨⟨rfl, rfl, by decide, by decide⟩,
   payment_codec_roundtrip evmPayloadBig ⟨rfl, rfl, by decide, by decide⟩,
   ⟨rfl, rfl, (by decide : "solana" ∈ SupportedSVMNetworks)⟩,
   payment_codec_roundtrip svmPayloadSimple
     ⟨rfl, rfl, (by decide : "solana" ∈ SupportedSVMNetworks)⟩,
   ⟨rfl, rfl, by decide, by decide, by decide⟩,
   payment_codec_roundtrip hlPayloadRoundtrip ⟨rfl, rfl, by decide, by decide, by decide⟩⟩

/-- A non-empty payer string is JS-truthy. -/
theorem payerTruthy_of_ne (py : String) (h : py ≠ "") :
    payerTruthy (some py) = true := by
  cases py with
  | mk data =>
    cases data with
    | nil => exact absurd rfl h
    | cons c t => rfl

/-- Reduction of `settle` once the shape guard passes and the exchange
submission succeeds with body `body`. -/
theorem settle_reduce (eff : SettleEffects) (p : PaymentPayload)
    (r : PaymentRequirements) (h : HlPayload) (body : Json)
    (hs : p.scheme = SCHEME) (hrs : r.scheme = SCHEME)
    (hn : p.network = r.network) (hm : r.network ∈ SupportedHLNetworks)
    (hpl : p.payload = .hl h)
    (hex : submitExchange eff.exchange = .ok body) :
    settle eff p r =
      (if payerTruthy (extractPayerHl h) ∧
          (if payerTruthy (extractPayerHl h) then
            findMatchingTransactionHash eff.userDetails h r
          else none) = none then
        failureResponse "hl_tx_not_found" r p (extractExchangeTxHash body)
          (extractPayerHl h)
      else
        match (if payerTruthy (extractPayerHl h) then
            findMatchingTransactionHash eff.userDetails h r
          else none).orElse (fun _ => extractExchangeTxHash body) with
        | none =>
          failureResponse "hl_tx_not_found" r p (extractExchangeTxHash body)
            (extractPayerHl h)
        | some txHash =>
          if ¬isHexHash txHash then
            failureResponse "hl_tx_not_found" r p (extractExchangeTxHash body)
              (extractPayerHl h)
          else
            match (confirmTransaction eff.txLookup).1 with
            | .notFound =>
              failureResponse "hl_tx_not_found" r p (some txHash) (extractPayerHl h)
            | .timeout =>
              failureResponse "hl_tx_unconfirmed" r p (some txHash) (extractPayerHl h)
            | .confirmed =>
              { success := true, transaction := txHash, network := r.network,
                payer := extractPayerHl h, errorReason := none }) := by
  unfold settle
  rw [if_neg (not_not_intro ⟨hs, hrs, hn, hm⟩), hpl]
  simp only [hlPayloadOf, hex, extractPayer]

/-- Every `settle` result is either a `failureResponse` or the success
record carrying a validated transaction hash. -/
theorem settle_shape (eff : SettleEffects) (p : PaymentPayload)
    (r : PaymentRequirements) :
    (∃ reason tx payer, settle eff p r = failureResponse reason r p tx payer) ∨
    (∃ txh payer,
      settle eff p r =
        { success := true, transaction := txh, network := r.network,
          payer := payer, errorReason := none } ∧
      isHexHash txh = true) := by
  by_cases hguard : p.scheme = SCHEME ∧ r.scheme = SCHEME ∧
      p.network = r.network ∧ r.network ∈ SupportedHLNetworks
  case neg =>
    left
    exact ⟨"invalid_exact_hl_network", none, none, by unfold settle; rw [if_pos hguard]⟩
  case pos =>
    obtain ⟨hs, hrs, hn, hm⟩ := hguard
    cases hplv : p.payload with
    | evm e =>
      left
      refine ⟨"invalid_exact_hl_payload", none, none, ?_⟩
      unfold settle
      rw [if_neg (not_not_intro ⟨hs, hrs, hn, hm⟩), hplv]
      simp [hlPayloadOf]
    | svm s =>
      left
      refine ⟨"invalid_exact_hl_payload", none, none, ?_⟩
      unfold settle
      rw [if_neg (not_not_intro ⟨hs, hrs, hn, hm⟩), hplv]
      simp [hlPayloadOf]
    | hl h =>
      cases hex : submitExchange eff.exchange with
      | error u =>
        left
        refine ⟨"hl_exchange_error", none, none, ?_⟩
        unfold settle
        rw [if_neg (not_not_intro ⟨hs, hrs, hn, hm⟩), hplv]
        simp only [hlPayloadOf, hex]
      | ok body =>
        by_cases hpt : payerTruthy (extractPayerHl h) = true
        · cases hfm : findMatchingTransactionHash eff.userDetails h r with
          | none =>
            left
            refine ⟨"hl_tx_not_found", extractExchangeTxHash body, extractPayerHl h, ?_⟩
            rw [settle_reduce eff p r h body hs hrs hn hm hplv hex]
            simp [hpt, hfm]
          | some mh =>
            by_cases hhex : isHexHash mh = true
            · cases hconf : (confirmTransaction eff.txLookup).1 with
              | notFound =>
                left
                refine ⟨"hl_tx_not_found", some mh, extractPayerHl h, ?_⟩
                rw [settle_reduce eff p r h body hs hrs hn hm hplv hex]
                simp [hpt, hfm, hhex, hconf]
              | timeout =>
                left
                refine ⟨"hl_tx_unconfirmed", some mh, extractPayerHl h, ?_⟩
                rw [settle_reduce eff p r h body hs hrs hn hm hplv hex]
                simp [hpt, hfm, hhex, hconf]
              | confirmed =>
                right
                refine ⟨mh, extractPayerHl h, ?_, hhex⟩
                rw [settle_reduce eff p r h body hs hrs hn hm hplv hex]
                simp [hpt, hfm, hhex, hconf]
            · left
              refine ⟨"hl_tx_not_found", extractExchangeTxHash body, extractPayerHl h, ?_⟩
              rw [settle_reduce eff p r h body hs hrs hn hm hplv hex]
              simp [hpt, hfm, hhex]
        · have hptf : payerTruthy (extractPayerHl h) = false := by
            cases hx : payerTruthy (extractPayerHl h)
            · rfl
            · exact absurd hx hpt
          cases hack : extractExchangeTxHash body with
          | none =>
            left
            refine ⟨"hl_tx_not_found", none, extractPayerHl h, ?_⟩
            rw [settle_reduce eff p r h body hs hrs hn hm hplv hex]
            simp [hptf, hack]
          | some hh =>
            by_cases hhex : isHexHash hh = true
            · cases hconf : (confirmTransaction eff.txLookup).1 with
              | notFound =>
                left
                refine ⟨"hl_tx_not_found", some hh, extractPayerHl h, ?_⟩
                rw [settle_reduce eff p r h body hs hrs hn hm hplv hex]
                simp [hptf, hack, hhex, hconf]
              | timeout =>
                left
                refine ⟨"hl_tx_unconfirmed", some hh, extractPayerHl h, ?_⟩
                rw [settle_reduce eff p r h body hs hrs hn hm hplv hex]
                simp [hptf, hack, hhex, hconf]
              | confirmed =>
                right
                refine ⟨hh, extractPayerHl h, ?_, hhex⟩
                rw [settle_reduce eff p r h body hs hrs hn hm hplv hex]
                simp [hptf, hack, hhex, hconf]
            · left
              refine ⟨"hl_tx_not_found", extractExchangeTxHash body, extractPayerHl h, ?_⟩
              rw [settle_reduce eff p r h body hs hrs hn hm hplv hex]
              simp [hptf, hack, hhex]

/-- One unrolling step of the confirmation retry loop. -/
theorem confirmAux_step (txLookup : Nat → Except String Unit)
    (attempt remaining : Nat) :
    confirmAux txLookup attempt (remaining + 1) =
      (match txLookup attempt with
       | .ok _ => (.confirmed, 1)
       | .error e =>
         if containsSub "not found".data (jsToLower e).data then (.notFound, 1)
         else
           let rest := confirmAux txLookup (attempt + 1) remaining
           (rest.1, rest.2 + 1)) := rfl

/-- C7: in settle, when a payer identity is known, history matching is
authoritative: if the account history holds exactly the transaction
matching the payload (destination, asset, amount, and the stated
chain/type/time-or-nonce fields, per `transactionMatchesPayment`) with a
valid hash, settle uses that transaction's hash and succeeds once
confirmed; if no history transaction matches, settle fails with
`hl_tx_not_found` even though the exchange acknowledgment carried its own
transaction id. -/
theorem settle_history_matching (eff : SettleEffects) (p : PaymentPayload)
    (r : PaymentRequirements) (h : HlPayload) (body : Json)
    (hs : p.scheme = SCHEME) (hrs : r.scheme = SCHEME)
    (hn : p.network = r.network) (hm : r.network ∈ SupportedHLNetworks)
    (hpl : p.payload = .hl h)
    (hex : submitExchange eff.exchange = .ok body)
    (py : String) (hpy : extractPayerHl h = some py) (hpyne : py ≠ "")
    (details : Json) (hud : eff.userDetails = .ok details) :
    (∀ (tx : Json) (m : String),
      (extractUserTransactions details).filter
          (fun t => transactionMatchesPayment t h r) = [tx] →
      txField tx "hash" = some (.str m) → isHexHash m = true →
      (confirmTransaction eff.txLookup).1 = .confirmed →
      settle eff p r =
        { success := true, transaction := m, network := r.network,
          payer := some py, errorReason := none }) ∧
    ((extractUserTransactions details).filter
        (fun t => transactionMatchesPayment t h r) = [] →
      settle eff p r =
        failureResponse "hl_tx_not_found" r p (extractExchangeTxHash body) (some py)) := by
  have htruthy : payerTruthy (some py) = true := payerTruthy_of_ne py hpyne
  rw [settle_reduce eff p r h body hs hrs hn hm hpl hex]
  constructor
  · intro tx m hfilter hhash hhex hconf
    have hmatched : findMatchingTransactionHash eff.userDetails h r = some m := by
      unfold findMatchingTransactionHash
      rw [hud]
      simp only [hfilter, sortByTsDesc, insertByTsDesc, firstValidHash, hhash, hhex,
        if_true]
    simp [hpy, htruthy, hmatched, hhex, hconf]
  · intro hfilter
    have hmatched : findMatchingTransactionHash eff.userDetails h r = none := by
      unfold findMatchingTransactionHash
      rw [hud]
      simp only [hfilter, sortByTsDesc, firstValidHash]
    simp [hpy, htruthy, hmatched]

/-- C8: the confirmation poll runs a fixed budget of
`CONFIRMATION_RETRIES = 3` lookups separated by a fixed
`CONFIRMATION_DELAY_MS = 250` pause; a lookup error containing a
"not found" signal yields `notFound` immediately after a single lookup,
any other error consumes one attempt, exhausting all attempts yields
`timeout`, and at the settle level these surface as `hl_tx_not_found` and
`hl_tx_unconfirmed`. -/
theorem settle_confirmation_retry_budget :
    (CONFIRMATION_RETRIES = 3 ∧ CONFIRMATION_DELAY_MS = 250) ∧
    (∀ (txLookup : Nat → Except String Unit) (e : String),
      txLookup 0 = .error e →
      containsSub "not found".data (jsToLower e).data = true →
      confirmTransaction txLookup = (.notFound, 1)) ∧
    (∀ (txLookup : Nat → Except String Unit) (e0 e1 e2 : String),
      txLookup 0 = .error e0 →
      containsSub "not found".data (jsToLower e0).data = false →
      txLookup 1 = .error e1 →
      containsSub "not found".data (jsToLower e1).data = false →
      txLookup 2 = .error e2 →
      containsSub "not found".data (jsToLower e2).data = false →
      confirmTransaction txLookup = (.timeout, CONFIRMATION_RETRIES)) ∧
    (∀ (eff : SettleEffects) (p : PaymentPayload) (r : PaymentRequirements)
       (h : HlPayload) (body : Json) (m : String),
      p.scheme = SCHEME → r.scheme = SCHEME → p.network = r.network →
      r.network ∈ SupportedHLNetworks → p.payload = .hl h →
      submitExchange eff.exchange = .ok body →
      extractPayerHl h = none → extractExchangeTxHash body = some m →
      isHexHash m = true →
      ((confirmTransaction eff.txLookup).1 = .notFound →
        settle eff p r = failureResponse "hl_tx_not_found" r p (some m) none) ∧
      ((confirmTransaction eff.txLookup).1 = .timeout →
        settle eff p r = failureResponse "hl_tx_unconfirmed" r p (some m) none)) := by
  refine ⟨⟨rfl, rfl⟩, ?_, ?_, ?_⟩
  · intro txLookup e h0 hc
    have h3 : confirmTransaction txLookup = confirmAux txLookup 0 (2 + 1) := rfl
    rw [h3, confirmAux_step, h0]
    simp [hc]
  · intro txLookup e0 e1 e2 h0 c0 h1 c1 h2 c2
    have h3 : confirmTransaction txLookup = confirmAux txLookup 0 (2 + 1) := rfl
    have e21 : (2 : Nat) = 1 + 1 := rfl
    have e10 : (1 : Nat) = 0 + 1 := rfl
    rw [h3, confirmAux_step, h0]
    simp only [c0, if_false, Bool.false_eq_true]
    rw [e21, confirmAux_step, h1]
    simp only [c1, if_false, Bool.false_eq_true]
    rw [e10, confirmAux_step, h2]
    simp only [c2, if_false, Bool.false_eq_true]
    simp [confirmAux, CONFIRMATION_RETRIES]
  · intro eff p r h body m hs hrs hn hm hpl hex hpayer hack hhex
    rw [settle_reduce eff p r h body hs hrs hn hm hpl hex]
    constructor
    · intro hconf
      simp [hpayer, payerTruthy, hack, hhex, hconf]
    · intro hconf
      simp [hpayer, payerTruthy, hack, hhex, hconf]

/-- C9: settle is a total function of its inputs and effects (the
embedding's catch-all): once the shape guard passes, a failed exchange
submission produces the structured `hl_exchange_error` response; a
submission acknowledgment counts as success only when the HTTP status is
ok AND the parsed body carries the explicit `status: "ok"` marker; and
every settle result is structured — success or a populated error
reason. -/
theorem settle_exchange_error_structured :
    (∀ (eff : SettleEffects) (p : PaymentPayload) (r : PaymentRequirements)
       (h : HlPayload),
      p.scheme = SCHEME → r.scheme = SCHEME → p.network = r.network →
      r.network ∈ SupportedHLNetworks → p.payload = .hl h →
      submitExchange eff.exchange = .error () →
      settle eff p r = failureResponse "hl_exchange_error" r p none none) ∧
    (∀ (o : Bool) (body : Option Json) (j : Json),
      submitExchange (.response o body) = .ok j →
      o = true ∧ body = some j ∧ jsGet j "status" = some (.str "ok")) ∧
    (∀ (eff : SettleEffects) (p : PaymentPayload) (r : PaymentRequirements),
      (settle eff p r).success = true ∨ (settle eff p r).errorReason ≠ none) := by
  refine ⟨?_, ?_, ?_⟩
  · intro eff p r h hs hrs hn hm hpl hex
    unfold settle
    rw [if_neg (not_not_intro ⟨hs, hrs, hn, hm⟩), hpl]
    simp only [hlPayloadOf, hex]
  · intro o body j hok
    cases o with
    | false => exact absurd hok (by simp [submitExchange])
    | true =>
      cases body with
      | none => exact absurd hok (by simp [submitExchange])
      | some jj =>
        have hok2 : (if jsFalsy jj then Except.error ()
            else
              match jsGet jj "status" with
              | some (.str s) => if s = "ok" then Except.ok jj else .error ()
              | _ => .error ()) = Except.ok j := hok
        by_cases hf : jsFalsy jj = true
        · rw [if_pos hf] at hok2
          cases hok2
        · rw [if_neg (by simp [hf])] at hok2
          cases hg : jsGet jj "status" with
          | none =>
            rw [hg] at hok2
            cases hok2
          | some v =>
            rw [hg] at hok2
            cases v with
            | str s =>
              change (if s = "ok" then Except.ok jj else Except.error ()) =
                Except.ok j at hok2
              by_cases hsok : s = "ok"
              · rw [if_pos hsok] at hok2
                injection hok2 with hjj
                subst hjj
                subst hsok
                exact ⟨rfl, rfl, hg⟩
              · rw [if_neg hsok] at hok2
                cases hok2
            | null => cases hok2
            | bool b => cases hok2
            | num q => cases hok2
            | arr xs => cases hok2
            | obj fs => cases hok2
  · intro eff p r
    rcases settle_shape eff p r with ⟨reason, tx, payer, heq⟩ | ⟨txh, payer, heq, hhex⟩
    · right
      rw [heq]
      simp [failureResponse]
    · left
      rw [heq]

/-- C10: every successful settle response carries a transaction id
matching `^0x[0-9a-fA-F]{64}$`; and when the resolved id (here the
acknowledgment id, with no payer known) is present but not of that form,
settle fails with `hl_tx_not_found`. -/
theorem settle_success_hash_form :
    (∀ (eff : SettleEffects) (p : PaymentPayload) (r : PaymentRequirements),
      (settle eff p r).success = true →
      isHexHash (settle eff p r).transaction = true) ∧
    (∀ (eff : SettleEffects) (p : PaymentPayload) (r : PaymentRequirements)
       (h : HlPayload) (body : Json) (hash : String),
      p.scheme = SCHEME → r.scheme = SCHEME → p.network = r.network →
      r.network ∈ SupportedHLNetworks → p.payload = .hl h →
      submitExchange eff.exchange = .ok body →
      extractPayerHl h = none → extractExchangeTxHash body = some hash →
      isHexHash hash = false →
      settle eff p r = failureResponse "hl_tx_not_found" r p (some hash) none) := by
  constructor
  · intro eff p r hsucc
    rcases settle_shape eff p r with ⟨reason, tx, payer, heq⟩ | ⟨txh, payer, heq, hhex⟩
    · rw [heq] at hsucc
      simp [failureResponse] at hsucc
    · rw [heq]
      simpa using hhex
  · intro eff p r h body hash hs hrs hn hm hpl hex hpayer hack hnothex
    rw [settle_reduce eff p r h body hs hrs hn hm hpl hex]
    simp [hpayer, payerTruthy, hack, hnothex]

/-- Witness for C7: the settle-test scenario — matching history entry
resolves success with that transaction's hash; a history whose only entry
has a different destination fails with `hl_tx_not_found` even though the
acknowledgment carried the hash. -/
theorem settle_history_matching_witness :
    settle
      { exchange := .response true (some exchangeOkBody),
        userDetails := .ok (.obj [("txs",
          .arr [historyTx "0xaaaaaaaaaaaaaaaaaaaaaaaaaaaaaaaaaaaaaaaa"])]),
        txLookup := fun _ => .ok () }
      settlePayloadSample hlReqSample =
      { success := true, transaction := txHashSample, network := "hyperliquid",
        payer := some "0xbbbbbbbbbbbbbbbbbbbbbbbbbbbbbbbbbbbbbbbb",
        errorReason := none } ∧
    settle
      { exchange := .response true (some exchangeOkBody),
        userDetails := .ok (.obj [("txs",
          .arr [historyTx "0xcccccccccccccccccccccccccccccccccccccccc"])]),
        txLookup := fun _ => .ok () }
      settlePayloadSample hlReqSample =
      failureResponse "hl_tx_not_found" hlReqSample settlePayloadSample
        (extractExchangeTxHash exchangeOkBody)
        (some "0xbbbbbbbbbbbbbbbbbbbbbbbbbbbbbbbbbbbbbbbb") :=
  ⟨(settle_history_matching
      { exchange := .response true (some exchangeOkBody),
        userDetails := .ok (.obj [("txs",
          .arr [historyTx "0xaaaaaaaaaaaaaaaaaaaaaaaaaaaaaaaaaaaaaaaa"])]),
        txLookup := fun _ => .ok () }
      settlePayloadSample hlReqSample
      { action := hlActionSample "0xaaaaaaaaaaaaaaaaaaaaaaaaaaaaaaaaaaaaaaaa"
          "USDC:0xeb62eee3685fc4c43992febcd9e75443" "1" 1700000000000,
        signature := .hexSig "0x1111", nonce := 1700000000000,
        user := some "0xbbbbbbbbbbbbbbbbbbbbbbbbbbbbbbbbbbbbbbbb" }
      exchangeOkBody rfl rfl rfl (by decide) rfl rfl
      "0xbbbbbbbbbbbbbbbbbbbbbbbbbbbbbbbbbbbbbbbb" rfl (by decide)
      (.obj [("txs", .arr [historyTx "0xaaaaaaaaaaaaaaaaaaaaaaaaaaaaaaaaaaaaaaaa"])])
      rfl).1
    (historyTx "0xaaaaaaaaaaaaaaaaaaaaaaaaaaaaaaaaaaaaaaaa") txHashSample
    rfl rfl rfl rfl,
   (settle_history_matching
      { exchange := .response true (some exchangeOkBody),
        userDetails := .ok (.obj [("txs",
          .arr [historyTx "0xcccccccccccccccccccccccccccccccccccccccc"])]),
        txLookup := fun _ => .ok () }
      settlePayloadSample hlReqSample
      { action := hlActionSample "0xaaaaaaaaaaaaaaaaaaaaaaaaaaaaaaaaaaaaaaaa"
          "USDC:0xeb62eee3685fc4c43992febcd9e75443" "1" 1700000000000,
        signature := .hexSig "0x1111", nonce := 1700000000000,
        user := some "0xbbbbbbbbbbbbbbbbbbbbbbbbbbbbbbbbbbbbbbbb" }
      exchangeOkBody rfl rfl rfl (by decide) rfl rfl
      "0xbbbbbbbbbbbbbbbbbbbbbbbbbbbbbbbbbbbbbbbb" rfl (by decide)
      (.obj [("txs", .arr [historyTx "0xcccccccccccccccccccccccccccccccccccccccc"])])
      rfl).2 rfl⟩

/-- Witness for C8: a first-attempt "not found" error stops after one
lookup; persistent other errors exhaust all three attempts and time out,
and at the settle level surface as `hl_tx_unconfirmed`. -/
theorem settle_confirmation_retry_budget_witness :
    confirmTransaction (fun _ => .error "transaction not found") = (.notFound, 1) ∧
    confirmTransaction (fun _ => .error "temporary confirmation error") =
      (.timeout, CONFIRMATION_RETRIES) ∧
    settle
      { exchange := .response true (some exchangeOkBody),
        userDetails := .error (),
        txLookup := fun _ => .error "temporary confirmation error" }
      settlePayloadNoUser hlReqSample =
      failureResponse "hl_tx_unconfirmed" hlReqSample settlePayloadNoUser
        (some txHashSample) none :=
  ⟨settle_confirmation_retry_budget.2.1 (fun _ => .error "transaction not found")
      "transaction not found" rfl (by decide),
   settle_confirmation_retry_budget.2.2.1
      (fun _ => .error "temporary confirmation error")
      "temporary confirmation error" "temporary confirmation error"
      "temporary confirmation error" rfl (by decide) rfl (by decide) rfl (by decide),
   (settle_confirmation_retry_budget.2.2.2
      { exchange := .response true (some exchangeOkBody),
        userDetails := .error (),
        txLookup := fun _ => .error "temporary confirmation error" }
      settlePayloadNoUser hlReqSample
      { action := hlActionSample "0xaaaaaaaaaaaaaaaaaaaaaaaaaaaaaaaaaaaaaaaa"
          "USDC:0xeb62eee3685fc4c43992febcd9e75443" "1" 1700000000000,
        signature := .hexSig "0x1111", nonce := 1700000000000, user := none }
      exchangeOkBody txHashSample rfl rfl rfl (by decide) rfl rfl rfl rfl
      (by decide)).2 (by decide)⟩

/-- Witness for C9: an acknowledgment body whose status marker is not
`"ok"` makes settle return the structured `hl_exchange_error` response
despite the HTTP-level success, and a successful submission is
characterized by the explicit `"ok"` marker. -/
theorem settle_exchange_error_structured_witness :
    settle
      { exchange := .response true (some (.obj [("status", .str "err")])),
        userDetails := .error (), txLookup := fun _ => .ok () }
      settlePayloadSample hlReqSample =
      failureResponse "hl_exchange_error" hlReqSample settlePayloadSample none none ∧
    (true = true ∧ some exchangeOkBody = some exchangeOkBody ∧
      jsGet exchangeOkBody "status" = some (.str "ok")) :=
  ⟨settle_exchange_error_structured.1
      { exchange := .response true (some (.obj [("status", .str "err")])),
        userDetails := .error (), txLookup := fun _ => .ok () }
      settlePayloadSample hlReqSample
      { action := hlActionSample "0xaaaaaaaaaaaaaaaaaaaaaaaaaaaaaaaaaaaaaaaa"
          "USDC:0xeb62eee3685fc4c43992febcd9e75443" "1" 1700000000000,
        signature := .hexSig "0x1111", nonce := 1700000000000,
        user := some "0xbbbbbbbbbbbbbbbbbbbbbbbbbbbbbbbbbbbbbbbb" }
      rfl rfl rfl (by decide) rfl rfl,
   settle_exchange_error_structured.2.1 true (some exchangeOkBody) exchangeOkBody rfl⟩

/-- Witness for C10: the fully successful settle scenario returns a
transaction matching the 64-hex-digit hash form, and an acknowledgment id
`"0xabc"` that is not of that form fails with `hl_tx_not_found`. -/
theorem settle_success_hash_form_witness :
    isHexHash
      (settle
        { exchange := .response true (some exchangeOkBody),
          userDetails := .ok (.obj [("txs",
            .arr [historyTx "0xaaaaaaaaaaaaaaaaaaaaaaaaaaaaaaaaaaaaaaaa"])]),
          txLookup := fun _ => .ok () }
        settlePayloadSample hlReqSample).transaction = true ∧
    settle
      { exchange := .response true (some exchangeBadHashBody),
        userDetails := .error (), txLookup := fun _ => .ok () }
      settlePayloadNoUser hlReqSample =
      failureResponse "hl_tx_not_found" hlReqSample settlePayloadNoUser
        (some "0xabc") none :=
  ⟨settle_success_hash_form.1
      { exchange := .response true (some exchangeOkBody),
        userDetails := .ok (.obj [("txs",
          .arr [historyTx "0xaaaaaaaaaaaaaaaaaaaaaaaaaaaaaaaaaaaaaaaa"])]),
        txLookup := fun _ => .ok () }
      settlePayloadSample hlReqSample rfl,
   settle_success_hash_form.2
      { exchange := .response true (some exchangeBadHashBody),
        userDetails := .error (), txLookup := fun _ => .ok () }
      settlePayloadNoUser hlReqSample
      { action := hlActionSample "0xaaaaaaaaaaaaaaaaaaaaaaaaaaaaaaaaaaaaaaaa"
          "USDC:0xeb62eee3685fc4c43992febcd9e75443" "1" 1700000000000,
        signature := .hexSig "0x1111", nonce := 1700000000000, user := none }
      exchangeBadHashBody "0xabc" rfl rfl rfl (by decide) rfl rfl rfl rfl rfl⟩
